import Mathlib

/-!
# Verification of the evidence-attribution engine (`context_tracker.py`)

This file gives a shallow embedding, in Lean 4, of the evidence-attribution
engine of the repository (module `context_tracker.py`) and settles the frozen
claims C1..C10 about it.

Modelling conventions:

* Python strings are modelled as `Str := List Char`; all documents under
  consideration are ASCII (plus the bullet/dash glyphs that the cleaning
  passes normalise), so Python's `str.lower`, `\w`, `\s` agree with the
  ASCII-level definitions used here.
* Python floats are modelled as `ℚ`.  Every constant appearing in the source
  (0.25, 0.45, 0.6, ...) is an exact decimal, and all comparisons proved here
  are far from the sub-ulp regime, so this is faithful for the claims at hand.
  `round(x, 3)` is modelled as rounding `x·1000` to the nearest integer
  (the source values reached in the concrete theorems are exact multiples of
  1/1000, where both conventions agree).
* Each `re` operation of the source is implemented as a dedicated executable
  function implementing that concrete pattern's semantics (leftmost match,
  greedy/backtracking preference, non-overlapping substitution scan).
  A small nondeterministic-matcher library (`Matcher`, below) mirrors the
  backtracking order of the `re` engine: a matcher returns the list of
  possible remainders, most-preferred first.
* The module-level semantic-similarity capability (`sentence_transformers`)
  is an optional external dependency guarded by `try/except` in the source;
  this development models the (fully supported) configuration in which that
  module fails to load: `SEMANTIC_AVAILABLE = False`, the model is `None`, and the
  embedding caches are never consulted.  All scoring then follows the
  keyword/fuzzy-only paths, exactly as in the source.
* `fuzzywuzzy.fuzz.partial_ratio` is an external library (not under `src/`);
  it is modelled from the spec as a 0–100 partial-similarity score
  (see `fuzz_partial_score`).  No claim settled here depends on its exact
  values, only on its 0–100 range and on branches where it is not consulted.
-/

set_option maxHeartbeats 4000000
set_option maxRecDepth 10000

/-- Python strings, modelled as lists of characters. -/
abbrev Str := List Char

namespace CT

/-! ## Basic string helpers (Python built-in semantics) -/

/-- Python `\s` / `str.strip` whitespace: space, tab, newline, carriage
return, vertical tab, form feed. -/
def isWsChar (c : Char) : Bool :=
  c = ' ' || c = '\t' || c = '\n' || c = '\r' || c = '\x0b' || c = '\x0c'

def isDigitChar (c : Char) : Bool := '0' ≤ c && c ≤ '9'

def isUpperChar (c : Char) : Bool := 'A' ≤ c && c ≤ 'Z'

def isLowerChar (c : Char) : Bool := 'a' ≤ c && c ≤ 'z'

def isAlphaChar (c : Char) : Bool := isUpperChar c || isLowerChar c

/-- Python regex `\w` (ASCII). -/
def isWordChar (c : Char) : Bool := isAlphaChar c || isDigitChar c || c = '_'

def lowerChar (c : Char) : Char :=
  if isUpperChar c then Char.ofNat (c.toNat + 32) else c

/-- Python `str.lower` (ASCII). -/
def pyLower (s : Str) : Str := s.map lowerChar

/-- Python `str.strip()`. -/
def pyStrip (s : Str) : Str :=
  ((s.dropWhile isWsChar).reverse.dropWhile isWsChar).reverse

/-- Python `str.split()` (no argument): split on whitespace runs, dropping
empty parts. -/
def pySplitWs (s : Str) : List Str :=
  ((s.splitOnP (fun c => isWsChar c)).filter (fun p => !p.isEmpty))

/-- Python `pat in s` (substring containment). -/
def containsSub (pat s : Str) : Bool :=
  (List.range (s.length + 1)).any (fun i => pat.isPrefixOf (s.drop i))

/-- Python `s.find(pat)`: index of the first occurrence, or `none`. -/
def findSub (pat s : Str) : Option Nat :=
  (List.range (s.length + 1)).find? (fun i => pat.isPrefixOf (s.drop i))

/-- Python slice `s[a:b]` for `0 ≤ a, b` (clamping semantics). -/
def slice (s : Str) (a b : Nat) : Str := (s.take b).drop a

/-- Python slice `s[a:]`. -/
def sliceFrom (s : Str) (a : Nat) : Str := s.drop a

/-- Python `s.split(sep)` for a single-character separator
(`''.split(c) = ['']`, separators at the ends produce empty parts). -/
def splitOnChar (c : Char) : Str → List Str
  | [] => [[]]
  | x :: rest =>
    if x = c then [] :: splitOnChar c rest
    else
      match splitOnChar c rest with
      | p :: ps => (x :: p) :: ps
      | [] => [[x]]

/-- Python `str.isupper()`: at least one cased character, and no lowercase
character.  (ASCII: cased = letters.) -/
def pyIsUpper (s : Str) : Bool :=
  s.any isAlphaChar && !(s.any isLowerChar)

/-- Python `str.startswith`. -/
def startsWith (pre s : Str) : Bool := pre.isPrefixOf s

/-- Python `str.replace(old, new)` (all occurrences, left to right,
non-overlapping); `old` is assumed non-empty at every call site. -/
def pyReplace (fuel : Nat) (old new s : Str) : Str :=
  match fuel, s with
  | 0, s => s
  | _ + 1, [] => []
  | fuel + 1, c :: rest =>
    if old.isPrefixOf (c :: rest) then
      new ++ pyReplace fuel old new ((c :: rest).drop old.length)
    else
      c :: pyReplace fuel old new rest

/-- Decimal digits of a natural number (for building placeholder names). -/
def natDigits (n : Nat) : Str :=
  (Nat.toDigits 10 n)

/-! ## A tiny backtracking matcher library

`Matcher` mirrors the behaviour of Python's `re` backtracking engine on the
concrete patterns used by the source: a matcher transforms an input suffix
into the ordered list of suffixes that can remain after consuming a match of
the (sub)pattern, most preferred first (greedy quantifiers prefer longest
consumption; alternations prefer earlier branches; `?` prefers presence). -/

def Matcher := Str → List Str

/-- Match a literal string. -/
def mLit (lit : Str) : Matcher := fun s =>
  if lit.isPrefixOf s then [s.drop lit.length] else []

/-- Match a literal string case-insensitively. -/
def mLitCI (lit : Str) : Matcher := fun s =>
  if (pyLower lit).isPrefixOf (pyLower (s.take lit.length)) && lit.length ≤ s.length then
    [s.drop lit.length]
  else []

/-- Sequencing. -/
def mSeq (a b : Matcher) : Matcher := fun s => (a s).flatMap b

/-- Alternation (earlier branch preferred). -/
def mAlt (a b : Matcher) : Matcher := fun s => a s ++ b s

/-- Alternation over a list of branches. -/
def mAlts (ms : List Matcher) : Matcher := fun s => ms.flatMap (fun m => m s)

/-- Optional (`?`), presence preferred. -/
def mOpt (a : Matcher) : Matcher := fun s => a s ++ [s]

/-- Greedy `*` over a character class: candidates from the longest run down
to the empty match. -/
def mStar (cls : Char → Bool) : Matcher := fun s =>
  let run := (s.takeWhile cls).length
  (List.range (run + 1)).map (fun k => s.drop (run - k))

/-- Greedy `+` over a character class. -/
def mPlus (cls : Char → Bool) : Matcher := fun s =>
  let run := (s.takeWhile cls).length
  (List.range run).map (fun k => s.drop (run - k))

/-- One character of a class. -/
def mCls (cls : Char → Bool) : Matcher := fun s =>
  match s with
  | [] => []
  | c :: rest => if cls c then [rest] else []

/-- End of input (`$` with no trailing newline, as in all texts considered). -/
def mEnd : Matcher := fun s => if s.isEmpty then [[]] else []

/-- Zero-width lookahead. -/
def mLookahead (a : Matcher) : Matcher := fun s =>
  if (a s).isEmpty then [] else [s]

/-- `re.search` for a matcher: the leftmost start position at which the
pattern matches, together with the end position of the preferred match.
Returns `(start, stop)` with `stop` computed from the first (most preferred)
remainder. -/
def mSearch (m : Matcher) (s : Str) : Option (Nat × Nat) :=
  (List.range (s.length + 1)).findSome? (fun i =>
    match m (s.drop i) with
    | [] => none
    | rem :: _ => some (i, s.length - rem.length))

/-- `re.match`-at-position: end of the preferred match of `m` at offset `i`,
if any. -/
def mMatchAt (m : Matcher) (s : Str) (i : Nat) : Option Nat :=
  match m (s.drop i) with
  | [] => none
  | rem :: _ => some (s.length - rem.length)

/-! ## `clean_ocr_artifacts`

The sixteen `re.sub` passes of `clean_ocr_artifacts`, applied in source
order.  Each pass is implemented as a non-overlapping left-to-right
substitution scan (`re.sub` semantics). -/

/-- One generic substitution scan: `step s` tries to match the pattern at the
head of `s`, returning `(replacement, remainder-after-match)`; on a match the
scan continues after the match, otherwise it advances one character.  Every
`step` used here consumes at least one character on success, so `fuel =
s.length` suffices. -/
def subScan (step : Str → Option (Str × Str)) : Nat → Str → Str
  | 0, s => s
  | _ + 1, [] => []
  | fuel + 1, c :: rest =>
    match step (c :: rest) with
    | some (repl, remaining) => repl ++ subScan step fuel remaining
    | none => c :: subScan step fuel rest

/-- Pass 1: `\?(?=\s|$)` → `''` (drop a `?` followed by whitespace or
end-of-string; the lookahead is not consumed). -/
def ocrStep1 : Str → Option (Str × Str)
  | '?' :: rest =>
    match rest with
    | [] => some ([], [])
    | c :: _ => if isWsChar c then some ([], rest) else none
  | _ => none

/-- Pass 2: `([A-Za-z])\?([A-Za-z])` → `\1\2`. -/
def ocrStep2 : Str → Option (Str × Str)
  | a :: '?' :: b :: rest =>
    if isAlphaChar a && isAlphaChar b then some ([a, b], rest) else none
  | _ => none

/-- Pass 3: `([0-9])\?([0-9])` → `\1\2`. -/
def ocrStep3 : Str → Option (Str × Str)
  | a :: '?' :: b :: rest =>
    if isDigitChar a && isDigitChar b then some ([a, b], rest) else none
  | _ => none

/-- Literal-pattern step: `lit + '?'` → `lit`. -/
def ocrStepLitQ (lit : Str) : Str → Option (Str × Str) := fun s =>
  if (lit ++ ['?']).isPrefixOf s then some (lit, s.drop (lit.length + 1)) else none

/-- Pass 6: `([A-Z]+)\?(\s+of\s+)` → `\1\2`. -/
def ocrStep6 : Str → Option (Str × Str) := fun s =>
  let caps := s.takeWhile isUpperChar
  if caps.isEmpty then none else
  match s.drop caps.length with
  | '?' :: rest =>
    let ws1 := rest.takeWhile isWsChar
    if ws1.isEmpty then none else
    let r1 := rest.drop ws1.length
    if ("of").toList.isPrefixOf r1 then
      let r2 := r1.drop 2
      let ws2 := r2.takeWhile isWsChar
      if ws2.isEmpty then none else
      some (caps ++ ws1 ++ ("of").toList ++ ws2, r2.drop ws2.length)
    else none
  | _ => none

/-- `lit1 + '?' + \s+ + lit2`-shaped step → `lit1 + ' ' + lit2` style
replacement (used for passes 7, 10, 11, which replace by a fixed string). -/
def ocrStepLitQWsLit (lit1 lit2 repl : Str) : Str → Option (Str × Str) := fun s =>
  if (lit1 ++ ['?']).isPrefixOf s then
    let r := s.drop (lit1.length + 1)
    let ws := r.takeWhile isWsChar
    if ws.isEmpty then none else
    let r2 := r.drop ws.length
    if lit2.isPrefixOf r2 then some (repl, r2.drop lit2.length) else none
  else none

/-- Pass 8: `(\w+)\?\s+(\w+)` → `\1 \2`. -/
def ocrStep8 : Str → Option (Str × Str) := fun s =>
  let w1 := s.takeWhile isWordChar
  if w1.isEmpty then none else
  match s.drop w1.length with
  | '?' :: rest =>
    let ws := rest.takeWhile isWsChar
    if ws.isEmpty then none else
    let r1 := rest.drop ws.length
    let w2 := r1.takeWhile isWordChar
    if w2.isEmpty then none else
    some (w1 ++ [' '] ++ w2, r1.drop w2.length)
  | _ => none

/-- Pass 9: `(\s+)\?(\s+of\s+)` → `\1\2`. -/
def ocrStep9 : Str → Option (Str × Str) := fun s =>
  let ws0 := s.takeWhile isWsChar
  if ws0.isEmpty then none else
  match s.drop ws0.length with
  | '?' :: rest =>
    let ws1 := rest.takeWhile isWsChar
    if ws1.isEmpty then none else
    let r1 := rest.drop ws1.length
    if ("of").toList.isPrefixOf r1 then
      let r2 := r1.drop 2
      let ws2 := r2.takeWhile isWsChar
      if ws2.isEmpty then none else
      some (ws0 ++ ws1 ++ ("of").toList ++ ws2, r2.drop ws2.length)
    else none
  | _ => none

/-- Pass 12: `[†‡]` → `•`. -/
def ocrStep12 : Str → Option (Str × Str)
  | c :: rest => if c = '†' || c = '‡' then some (['•'], rest) else none
  | _ => none

/-- Pass 13: `••` → `•`. -/
def ocrStep13 : Str → Option (Str × Str)
  | '•' :: '•' :: rest => some (['•'], rest)
  | _ => none

/-- Single-character replacement step. -/
def ocrStepChar (old new : Char) : Str → Option (Str × Str)
  | c :: rest => if c = old then some ([new], rest) else none
  | _ => none

/-- Pass 16: `\s+` → `' '` (collapse every whitespace run — including
newlines — to a single space). -/
def ocrStep16 : Str → Option (Str × Str) := fun s =>
  let ws := s.takeWhile isWsChar
  if ws.isEmpty then none else some ([' '], s.drop ws.length)

/-- `clean_ocr_artifacts` from the source: the sixteen substitution passes in
order. -/
def clean_ocr_artifacts (text : Str) : Str :=
  if text.isEmpty then text else
  let n := fun (s : Str) => s.length + 1
  let t1 := subScan ocrStep1 (n text) text
  let t2 := subScan ocrStep2 (n t1) t1
  let t3 := subScan ocrStep3 (n t2) t2
  let t4 := subScan (ocrStepLitQ ("NPAT").toList) (n t3) t3
  let t5 := subScan (ocrStepLitQ ("EPS").toList) (n t4) t4
  let t6 := subScan ocrStep6 (n t5) t5
  let t7 := subScan (ocrStepLitQWsLit ("per share").toList ("of").toList ("per share of").toList) (n t6) t6
  let t8 := subScan ocrStep8 (n t7) t7
  let t9 := subScan ocrStep9 (n t8) t8
  let t10 := subScan (ocrStepLitQWsLit ("Tax").toList ("of").toList ("Tax of").toList) (n t9) t9
  let t11 := subScan (ocrStepLitQWsLit ("profit").toList ("of").toList ("profit of").toList) (n t10) t10
  let t12 := subScan ocrStep12 (n t11) t11
  let t13 := subScan ocrStep13 (n t12) t12
  let t14 := subScan (ocrStepChar '–' '-') (n t13) t13
  let t15 := subScan (ocrStepChar '—' '-') (n t14) t14
  subScan ocrStep16 (n t15) t15

/-! ## `clean_segment_artifacts` -/

/-- `\s*\+\s*(?=[A-Z])` → `'. '`.  The match must consume at least the `+`
(the `\s*`s may be empty); the uppercase lookahead is not consumed. -/
def segStep1 : Str → Option (Str × Str) := fun s =>
  let ws0 := s.takeWhile isWsChar
  match s.drop ws0.length with
  | '+' :: rest =>
    let ws1 := rest.takeWhile isWsChar
    match rest.drop ws1.length with
    | c :: _ =>
      if isUpperChar c then some (('.' :: ' ' :: []), rest.drop ws1.length) else none
    | [] => none
  | _ => none

/-- `\s*\+\s*$` → `''` (at most one match, at the end). -/
def segDropTrailingPlus (s : Str) : Str :=
  let r := s.reverse
  let ws1 := r.takeWhile isWsChar
  match r.drop ws1.length with
  | '+' :: rest =>
    let ws0 := rest.takeWhile isWsChar
    (rest.drop ws0.length).reverse
  | _ => s

/-- `^\+\s*` → `''` (at most one match, at the start). -/
def segDropLeadingPlus (s : Str) : Str :=
  match s with
  | '+' :: rest => rest.dropWhile isWsChar
  | _ => s

/-- `([a-z])([A-Z])` → `\1 \2`. -/
def segStep4 : Str → Option (Str × Str)
  | a :: b :: rest =>
    if isLowerChar a && isUpperChar b then some ([a, ' ', b], rest) else none
  | _ => none

/-- `(\d)([A-Z])` → `\1 \2`. -/
def segStep5 : Str → Option (Str × Str)
  | a :: b :: rest =>
    if isDigitChar a && isUpperChar b then some ([a, ' ', b], rest) else none
  | _ => none

/-- `clean_segment_artifacts` from the source. -/
def clean_segment_artifacts (segment : Str) : Str :=
  if segment.isEmpty then segment else
  let n := fun (s : Str) => s.length + 1
  let t1 := subScan segStep1 (n segment) segment
  let t2 := segDropTrailingPlus t1
  let t3 := segDropLeadingPlus t2
  let t4 := subScan segStep4 (n t3) t3
  let t5 := subScan segStep5 (n t4) t4
  pyStrip t5

/-! ## `extract_sentences_from_text` -/

/-- The final pass of `clean_ocr_artifacts` collapses every whitespace run to
a single space, so its output contains no newline (nor any non-space
whitespace).  Proved as `clean_ocr_no_bad_ws` below.  Consequently the header
split `re.split(r'\n([A-Z\s]{3,}:?)\n', ...)` of the source never fires and
returns the singleton list, which is how it is modelled here. -/
def header_split (s : Str) : List Str := [s]

/-- Bullet-pattern delimiter at the head of `s`:
`(?:\s*[•†‡]\s*|\s*••\s*|\n{2,}|\n\s*(?:[•\-\*\+]|\d+[\.\)])\s+)`.
The `\n`-based alternatives never fire on the newline-free output of
`clean_ocr_artifacts` (lemma `clean_ocr_no_bad_ws`); the remaining
alternatives are a whitespace-padded bullet glyph (the `\s*••\s*` branch is
shadowed by the first branch matching a single `•`). -/
def bulletDelim (s : Str) : Option Str :=
  let ws0 := s.takeWhile isWsChar
  match s.drop ws0.length with
  | c :: rest =>
    if c = '•' || c = '†' || c = '‡' then
      some (rest.dropWhile isWsChar)
    else none
  | [] => none

/-- `re.split` on the bullet pattern (delimiters are unnamed groups, so they
are dropped). -/
def bullet_split_go : Nat → Str → Str → List Str
  | 0, acc, s => [acc.reverse ++ s]
  | _ + 1, acc, [] => [acc.reverse]
  | fuel + 1, acc, s@(c :: rest) =>
    match bulletDelim s with
    | some rem => acc.reverse :: bullet_split_go fuel [] rem
    | none => bullet_split_go fuel (c :: acc) rest

def bullet_split (s : Str) : List Str := bullet_split_go (s.length + 1) [] s

/-- Sentence-split delimiter: `(?<=[.!?])\s+(?=[A-Z])` — a whitespace run
preceded by sentence punctuation and followed by an uppercase letter.  `prev`
is the character immediately before the current position. -/
def sentDelim (prev : Option Char) (s : Str) : Option Str :=
  match prev with
  | some p =>
    if p = '.' || p = '!' || p = '?' then
      let ws := s.takeWhile isWsChar
      if ws.isEmpty then none else
      match s.drop ws.length with
      | c :: _ => if isUpperChar c then some (s.drop ws.length) else none
      | [] => none
    else none
  | none => none

/-- Alternative split delimiter: `(?<=[.!?;])\s+`. -/
def altDelim (prev : Option Char) (s : Str) : Option Str :=
  match prev with
  | some p =>
    if p = '.' || p = '!' || p = '?' || p = ';' then
      let ws := s.takeWhile isWsChar
      if ws.isEmpty then none else some (s.drop ws.length)
    else none
  | none => none

/-- Generic `re.split` scan with lookbehind support (`prev` is the previous
character of the string being scanned). -/
def splitPrevGo (delim : Option Char → Str → Option Str) :
    Nat → Option Char → Str → Str → List Str
  | 0, _, acc, s => [acc.reverse ++ s]
  | _ + 1, _, acc, [] => [acc.reverse]
  | fuel + 1, prev, acc, s@(c :: rest) =>
    match delim prev s with
    | some rem => acc.reverse :: splitPrevGo delim fuel prev [] rem
    | none => splitPrevGo delim fuel (some c) (c :: acc) rest

def split_sentences_main (s : Str) : List Str :=
  splitPrevGo sentDelim (s.length + 1) none [] s

def split_sentences_alt (s : Str) : List Str :=
  splitPrevGo altDelim (s.length + 1) none [] s

/-- Python `str.endswith(('.', '!', '?', ':'))`. -/
def endsWithPunct (s : Str) : Bool :=
  match s.reverse with
  | c :: _ => c = '.' || c = '!' || c = '?' || c = ':'
  | [] => false

/-- The line-joining fallback of `extract_sentences_from_text` (joining the
`\n`-split lines of a segment, gluing a line onto the previous one unless it
already ends with sentence punctuation). -/
def join_lines_fallback (segment : Str) : List Str :=
  let lines := splitOnChar '\n' segment
  if lines.length > 1 then
    let step := fun (st : List Str × Str) (line : Str) =>
      let (joined, current) := st
      let line := pyStrip line
      if line.isEmpty then (joined, current)
      else if !current.isEmpty && !endsWithPunct current then
        (joined, current ++ [' '] ++ line)
      else
        ((if current.isEmpty then joined else joined ++ [current]), line)
    let fin := lines.foldl step ([], [])
    if fin.2.isEmpty then fin.1 else fin.1 ++ [fin.2]
  else
    [segment]

/-- `^[•\-\*\+†‡]\s*` → `''` (anchored; at most one occurrence). -/
def dropLeadingBullet (s : Str) : Str :=
  match s with
  | c :: rest =>
    if c = '•' || c = '-' || c = '*' || c = '+' || c = '†' || c = '‡' then
      rest.dropWhile isWsChar
    else s
  | [] => s

/-- `^\d+[\.\)]\s*` → `''` (anchored; at most one occurrence). -/
def dropLeadingNumbering (s : Str) : Str :=
  let ds := s.takeWhile isDigitChar
  if ds.isEmpty then s else
  match s.drop ds.length with
  | c :: rest => if c = '.' || c = ')' then rest.dropWhile isWsChar else s
  | [] => s

/-- Substitution scan threading the previous character of the scanned string
(for `\b` lookbehind). -/
def subScanPrev (step : Option Char → Str → Option (Str × Str)) :
    Nat → Option Char → Str → Str
  | 0, _, s => s
  | _ + 1, _, [] => []
  | fuel + 1, prev, c :: rest =>
    match step prev (c :: rest) with
    | some (repl, remaining) =>
      let consumed := (c :: rest).take ((c :: rest).length - remaining.length)
      repl ++ subScanPrev step fuel (consumed.reverse.head?) remaining
    | none => c :: subScanPrev step fuel (some c) rest

/-- Word-boundary check for the character before / after a match. -/
def boundaryOk (c : Option Char) : Bool :=
  match c with
  | none => true
  | some c => !isWordChar c

/-- `\bA\s+B\b → repl` for single letters `A`, `B` (the `YoY` fix); the
`QoQ`/`MoM` fixes have an inner `o` with surrounding `\s+` handled by
`abbrevStep3`. -/
def abbrevStep2 (a : Str) (b : Char) (repl : Str) (prev : Option Char) (s : Str) :
    Option (Str × Str) :=
  if boundaryOk prev && a.isPrefixOf s then
    let r := s.drop a.length
    let ws := r.takeWhile isWsChar
    if ws.isEmpty then none else
    match r.drop ws.length with
    | c :: rest =>
      if c = b && boundaryOk rest.head? then some (repl, rest) else none
    | [] => none
  else none

/-- `\bA\s+o\s+A\b → repl` (the `QoQ` / `MoM` fixes). -/
def abbrevStep3 (a : Char) (repl : Str) (prev : Option Char) (s : Str) :
    Option (Str × Str) :=
  if boundaryOk prev then
    match s with
    | c :: rest =>
      if c = a then
        let ws1 := rest.takeWhile isWsChar
        if ws1.isEmpty then none else
        match rest.drop ws1.length with
        | 'o' :: r2 =>
          let ws2 := r2.takeWhile isWsChar
          if ws2.isEmpty then none else
          match r2.drop ws2.length with
          | c2 :: r3 =>
            if c2 = a && boundaryOk r3.head? then some (repl, r3) else none
          | [] => none
        | _ => none
      else none
    | [] => none
  else none

/-- The per-sentence cleanup pipeline of `extract_sentences_from_text`. -/
def cleanup_sentence (sentence : Str) : Str :=
  let s1 := pyStrip sentence
  let s2 := subScan ocrStep16 (s1.length + 1) s1
  let s3 := dropLeadingBullet s2
  let s4 := dropLeadingNumbering s3
  let s5 := segDropTrailingPlus s4
  let s6 := segDropLeadingPlus s5
  let s7 := subScanPrev (abbrevStep2 ("Yo").toList 'Y' ("YoY").toList) (s6.length + 1) none s6
  let s8 := subScanPrev (abbrevStep3 'Q' ("QoQ").toList) (s7.length + 1) none s7
  subScanPrev (abbrevStep3 'M' ("MoM").toList) (s8.length + 1) none s8

/-- `extract_sentences_from_text` from the source: clean OCR artifacts, split
into header/bullet segments, split segments into sentences (with the
alternative and line-joining fallbacks), clean up each sentence, and keep
those of length 10–500, numbering them in order. -/
def extract_sentences_from_text (full_text : Str) : List (Str × Nat) :=
  if full_text.isEmpty then [] else
  let cleaned := clean_ocr_artifacts full_text
  let headerSegments := header_split cleaned
  let processSegment := fun (st : List (Str × Nat) × Nat) (segment : Str) =>
    if (pyStrip segment).isEmpty then st else
    let segment := clean_segment_artifacts segment
    let sentences := split_sentences_main segment
    let sentences :=
      if sentences.length = 1 && segment.length > 50 then
        let alt := split_sentences_alt segment
        if alt.length > 1 then alt else join_lines_fallback segment
      else sentences
    sentences.foldl (fun (st : List (Str × Nat) × Nat) sentence =>
      let s := cleanup_sentence sentence
      if !s.isEmpty && 10 ≤ s.length && s.length ≤ 500 then
        (st.1 ++ [(s, st.2)], st.2 + 1)
      else st) st
  let processHeaderSegment := fun (st : List (Str × Nat) × Nat) (hs : Str) =>
    if (pyStrip hs).isEmpty then st else
    if pyIsUpper hs && (pySplitWs hs).length ≤ 5 then st else
    (bullet_split hs).foldl processSegment st
  (headerSegments.foldl processHeaderSegment ([], 0)).1

/-! ## Lexicon store -/

/-- `get_enhanced_semantic_groups` from the source (dict insertion order
preserved). -/
def get_enhanced_semantic_groups : List (Str × List Str) :=
  [ (("profit").toList, ["profit", "margin", "earnings", "net", "income", "profitability", "surplus", "gain", "ebitda", "operating"].map String.toList),
    (("revenue").toList, ["revenue", "sales", "turnover", "income", "receipts", "collections", "premium", "billing", "invoicing"].map String.toList),
    (("growth").toList, ["growth", "increase", "expansion", "rise", "improvement", "gain", "boost", "surge", "uptick"].map String.toList),
    (("financial").toList, ["financial", "fiscal", "monetary", "economic", "budget", "cost", "expense", "capital", "investment"].map String.toList),
    (("performance").toList, ["performance", "results", "outcome", "achievement", "success", "metrics", "indicators"].map String.toList),
    (("age").toList, ["age", "born", "years", "birthday", "birth", "old", "young", "elderly", "senior"].map String.toList),
    (("name").toList, ["name", "called", "known", "person", "individual", "mr", "ms", "dr", "sir", "madam"].map String.toList),
    (("citizenship").toList, ["citizen", "national", "visa", "status", "nationality", "passport", "immigration", "resident"].map String.toList),
    (("blood").toList, ["blood", "group", "type", "medical", "donor", "health", "emergency", "transfusion", "compatibility"].map String.toList),
    (("address").toList, ["address", "location", "residence", "home", "street", "city", "state", "postal", "zip"].map String.toList),
    (("contact").toList, ["contact", "phone", "email", "telephone", "mobile", "communication", "reach"].map String.toList),
    (("company").toList, ["company", "corporation", "firm", "business", "organization", "enterprise", "entity", "establishment"].map String.toList),
    (("job").toList, ["job", "position", "role", "work", "employment", "career", "profession", "occupation", "title"].map String.toList),
    (("technical").toList, ["technical", "technology", "expertise", "skills", "engineering", "development", "programming", "software"].map String.toList),
    (("education").toList, ["education", "degree", "university", "college", "school", "qualification", "certification", "training"].map String.toList),
    (("experience").toList, ["experience", "background", "history", "tenure", "service", "expertise", "knowledge"].map String.toList),
    (("market").toList, ["market", "industry", "sector", "segment", "competition", "share", "position", "landscape"].map String.toList),
    (("operations").toList, ["operations", "operational", "business", "activities", "processes", "workflow", "management"].map String.toList),
    (("strategy").toList, ["strategy", "strategic", "plan", "planning", "vision", "mission", "objectives", "goals"].map String.toList),
    (("statement").toList, ["said", "commented", "stated", "announced", "declared", "quote", "ceo", "managing director", "chairman", "executive"].map String.toList) ]

/-- `get_enhanced_anti_patterns` from the source.  The module defines this
function twice; Python's second definition shadows the first, so only the
second (financial-commentary-enhanced) table is in effect and is the one
embedded here. -/
def get_enhanced_anti_patterns : List (Str × List Str) :=
  [ (("profit").toList, ["profit-sharing scheme", "profit pool notional", "profit center", "profit motive"].map String.toList),
    (("revenue").toList, ["revenue recognition", "revenue model", "revenue stream"].map String.toList),
    (("growth").toList, ["hair growth", "plant growth", "tumor growth", "population growth"].map String.toList),
    (("blood").toList, ["blood money", "blood red", "blood relation", "blood sport", "blood flow"].map String.toList),
    (("age").toList, ["company age", "market age", "platform age", "stone age", "golden age"].map String.toList),
    (("citizenship").toList, ["citizenship ceremony", "citizenship test", "citizenship program"].map String.toList),
    (("company").toList, ["company car", "company policy", "company culture"].map String.toList),
    (("technical").toList, ["technical difficulties", "technical support", "technical issues"].map String.toList),
    (("market").toList, ["farmers market", "flea market", "black market", "stock market"].map String.toList),
    (("commentary").toList,
      ["said", "commented", "noted", "stated", "announced", "declared",
       "momentum continuing", "performed strongly", "upgraded the outlook",
       "outlook remains", "expects to", "anticipates", "forecasts",
       "management believes", "we are confident", "looking forward",
       "continuing into", "second half", "full year", "going forward",
       "pleased to announce", "excited about", "committed to",
       "driven by", "these increases", "continue to grow", "healthy expansion",
       "increases were driven by", "organic and bolt-on", "acquisition growth",
       "capital management", "leverage ratio of", "at 31 december"].map String.toList),
    (("quotes").toList,
      ["ceo said", "chief executive", "managing director said",
       "chairman commented", "according to", "as stated by",
       "in his remarks", "during the call", "in the presentation"].map String.toList),
    (("business_generic").toList,
      ["operates globally", "maintains workforce", "company overview",
       "general information", "business strategy", "strategic initiatives",
       "operational excellence", "market leadership", "industry trends",
       "competitive landscape", "market conditions", "economic environment"].map String.toList),
    (("references").toList,
      ["see footnote", "refer to note", "as detailed in",
       "further information", "additional details", "more information",
       "please refer", "see appendix", "see table", "see chart"].map String.toList) ]

/-- `get_financial_metric_anchors` from the source. -/
def get_financial_metric_anchors : List Str :=
  ["npat", "npat1", "underlying npat", "underlying npat1", "reported npat",
   "ebitda", "ebit", "pbt", "pre-tax profit", "pretax profit",
   "revenue", "total revenue", "underlying revenue",
   "earnings", "earnings per share", "eps", "underlying eps",
   "margin", "ebit margin", "profit margin", "net margin",
   "cost", "costs", "expenses", "investment costs",
   "net profit", "profit", "underlying profit", "reported profit",
   "income", "net income", "total income",
   "dividend", "interim dividend", "final dividend",
   "guidance", "npat guidance", "underlying guidance",
   "leverage ratio", "debt ratio", "cash", "facilities"].map String.toList

/-- The `problematic_fields` deny-list (appears verbatim in
`is_relevant_sentence` and in `generate_context_for_field`). -/
def problematic_fields : List Str :=
  ["period", "company", "name", "technology_impact", "performance_outcome"].map String.toList

/-! ## Fuzzy similarity (external library, modelled from the spec) -/

/-- Length of the longest contiguous block of `a` occurring in `b`. -/
def longestCommonBlock (a b : Str) : Nat :=
  ((List.range (a.length + 1)).map (fun i =>
    ((List.range (a.length - i + 1)).filter
      (fun k => containsSub ((a.drop i).take k) b)).foldl Nat.max 0)).foldl Nat.max 0

/-- Modelled from the spec: `fuzzywuzzy.fuzz.partial_ratio` is an external
library not under `src/`; §4.3 of the spec describes it as "a fuzzy
partial-similarity match (normalized 0–100)".  This model returns 100 exactly
when one string contains the other, and otherwise scales the longest common
contiguous block by the shorter length.  No claim settled in this file
depends on its exact values, only on its range and on code paths that do not
consult it. -/
def fuzz_partial_score (a b : Str) : ℚ :=
  if a.isEmpty || b.isEmpty then 0
  else if containsSub a b || containsSub b a then 100
  else (100 * (longestCommonBlock a b : ℚ)) / (min a.length b.length : ℚ)

/-! ## Scoring -/

/-- `re.sub(r'[_-]', ' ', s)`. -/
def underscoresToSpaces (s : Str) : Str :=
  s.map (fun c => if c = '_' || c = '-' then ' ' else c)

/-- Association lookup (Python `dict.get`). -/
def assocGet (k : Str) (l : List (Str × List Str)) : List Str :=
  ((l.find? (fun p => p.1 = k)).map Prod.snd).getD []

/-- STEP 7 value component of `is_relevant_sentence`: 0.4 for an exact
(case-insensitive) value match, a scaled fuzzy component above ratio 80 for
non-alphanumeric values, else 0. -/
def irsValueScore (value_clean sentence_lower : Str) (is_text_alphanum : Bool) : ℚ :=
  if !value_clean.isEmpty then
    if containsSub value_clean sentence_lower then 4/10
    else if !is_text_alphanum then
      let fr := fuzz_partial_score value_clean sentence_lower
      if fr > 80 then (fr / 100) * (3/10) else 0
    else 0
  else 0

/-- STEP 7 field-token component: 0.15 per (length > 2) field word present. -/
def irsFieldScore (field_lower sentence_lower : Str) : ℚ :=
  let field_clean := underscoresToSpaces field_lower
  let field_words := (pySplitWs field_clean).filter (fun w => w.length > 2)
  (15 : ℚ)/100 * (field_words.countP (fun w => containsSub w sentence_lower) : ℚ)

/-- STEP 7 domain component: 0.2 when some matched domain relates to the
field. -/
def irsDomainScore (field_lower : Str) (matched_domains : List Str) : ℚ :=
  if matched_domains.any (fun d => containsSub field_lower d || containsSub d field_lower)
  then 2/10 else 0

/-- The STEP 9 final score of `is_relevant_sentence` (the semantic
contribution is 0 in the modelled configuration). -/
def irsFinalScore (value_clean sentence_lower : Str) (is_text_alphanum : Bool)
    (field_lower : Str) (matched_domains : List Str) : ℚ :=
  irsValueScore value_clean sentence_lower is_text_alphanum +
    irsFieldScore field_lower sentence_lower +
    irsDomainScore field_lower matched_domains + 0 * (3/10)

/-- `is_relevant_sentence` from the source.  The optional semantic model is
`None` in the modelled configuration (see the file header), so the semantic
similarity contribution is 0 and the embedding caches are never touched. -/
def is_relevant_sentence (field sentence value : Str)
    (semantic_groups anti_patterns : List (Str × List Str))
    (threshold : ℚ) (is_numeric_field : Bool) : Bool × ℚ :=
  if sentence.isEmpty || field.isEmpty then (false, 0) else
  let sentence_lower := pyLower sentence
  let field_lower := pyLower field
  -- STEP 1: anti-pattern rejection (all categories, plus field-specific)
  let all_anti_patterns :=
    (anti_patterns.map Prod.snd).flatten ++ assocGet field_lower anti_patterns
  if all_anti_patterns.any (fun p => containsSub p sentence_lower) then (false, 0) else
  -- STEP 2: strict matching for text/alphanumeric values
  let value_clean := pyLower (pyStrip value)
  let is_text_alphanum := value_clean.any isAlphaChar
  if is_text_alphanum && !value_clean.isEmpty &&
     !containsSub value_clean sentence_lower &&
     fuzz_partial_score value_clean sentence_lower < 90 then (false, 0) else
  -- STEP 3 / STEP 4: problematic fields and adjusted threshold
  let is_problematic_field := problematic_fields.any (fun p => containsSub p field_lower)
  let adjusted_threshold : ℚ :=
    if !is_numeric_field || is_problematic_field then 6/10 else threshold
  -- STEP 5: length filter
  if (pySplitWs sentence).length > 50 then (false, 0) else
  -- STEP 6: cross-domain filtering
  let matched_domains :=
    (semantic_groups.filter (fun g => g.2.any (fun kw => containsSub kw sentence_lower))).map Prod.fst
  let field_related_domains :=
    matched_domains.filter (fun d => containsSub field_lower d || containsSub d field_lower)
  if matched_domains.length > 1 && !is_numeric_field && field_related_domains.isEmpty then
    (false, 0)
  else if matched_domains.length > 2 && is_numeric_field && field_related_domains.isEmpty then
    (false, 0)
  else
  -- STEP 7 / STEP 8 / STEP 9: relevance score (semantic similarity is 0,
  -- model unavailable)
  let semantic_score : ℚ := 0
  let final_score := irsFinalScore value_clean sentence_lower is_text_alphanum field_lower
    matched_domains
  (decide (adjusted_threshold ≤ final_score) || decide (adjusted_threshold ≤ semantic_score),
   final_score)

/-- Existence of four consecutive digits (`\d{4}`). -/
def hasFourDigits (s : Str) : Bool :=
  (List.range s.length).any (fun i =>
    ((s.drop i).take 4).length = 4 && ((s.drop i).take 4).all isDigitChar)

/-- Existence of `\d{1,2}/\d{1,2}` — equivalently a digit immediately before
a `/` and a digit immediately after. -/
def hasSlashDate : Str → Bool
  | a :: '/' :: b :: rest =>
    (isDigitChar a && isDigitChar b) || hasSlashDate ('/' :: b :: rest)
  | _ :: rest => hasSlashDate rest
  | [] => false

/-- The value-shape test of `determine_adaptive_threshold` on the stripped
value: numeric (`^[\d.,\s$%+-]+$`), short (at most 10 characters), code-like
(`^[A-Z0-9+\-]{1,5}$`), or date-like (`\d{4}|\d{1,2}/\d{1,2}`). -/
def adaptiveShapeLow (value_str : Str) : Bool :=
  let is_numeric :=
    !value_str.isEmpty && value_str.all (fun c =>
      isDigitChar c || c = '.' || c = ',' || isWsChar c || c = '$' || c = '%' ||
      c = '+' || c = '-')
  let is_short := value_str.length ≤ 10
  let is_code_like :=
    1 ≤ value_str.length && value_str.length ≤ 5 &&
    value_str.all (fun c => isUpperChar c || isDigitChar c || c = '+' || c = '-')
  let is_date_like := hasFourDigits value_str || hasSlashDate value_str
  is_numeric || is_short || is_code_like || is_date_like

/-- `determine_adaptive_threshold` from the source: 0.5 for an empty value,
0.25 for numeric / short / code-like / date-like values, and 0.45
otherwise.  The `field` argument is accepted but never inspected. -/
def determine_adaptive_threshold (_field value : Str) : ℚ :=
  if value.isEmpty then 1/2 else
  if adaptiveShapeLow (pyStrip value) then 1/4 else 9/20

/-- `calculate_keyword_proximity` from the source. -/
def calculate_keyword_proximity (field_words value_terms : List Str) (sentence : Str) : ℚ :=
  if field_words.isEmpty || value_terms.isEmpty || sentence.isEmpty then 0 else
  let words := pySplitWs (pyLower sentence)
  let idxWords := words.enum
  let field_positions := (idxWords.filter (fun p =>
    field_words.any (fun fw => containsSub fw p.2))).map Prod.fst
  let value_positions := (idxWords.filter (fun p =>
    value_terms.any (fun vt => containsSub (pyLower vt) p.2))).map Prod.fst
  if field_positions.isEmpty || value_positions.isEmpty then 0 else
  let dists := field_positions.flatMap (fun i =>
    value_positions.map (fun j => if i ≤ j then j - i else i - j))
  let min_distance := dists.foldl Nat.min (words.length + 1)
  if min_distance = 0 then 1
  else if min_distance ≤ 3 then 8/10
  else if min_distance ≤ 6 then 6/10
  else if min_distance ≤ 10 then 4/10
  else 2/10

/-- `detect_multi_domain_sentence` from the source. -/
def detect_multi_domain_sentence (sentence : Str)
    (semantic_groups : List (Str × List Str)) : Nat × List Str :=
  let sentence_lower := pyLower sentence
  let detected := (semantic_groups.filter (fun g =>
    g.2.any (fun kw => containsSub kw sentence_lower))).map Prod.fst
  (detected.length, detected)

/-- `re.findall(r'\d+\.?\d*', s)`: non-overlapping maximal number tokens. -/
def findNumberTokens : Nat → Str → List Str
  | 0, _ => []
  | _ + 1, [] => []
  | fuel + 1, c :: rest =>
    if isDigitChar c then
      let ds := (c :: rest).takeWhile isDigitChar
      let r1 := (c :: rest).drop ds.length
      match r1 with
      | '.' :: r2 =>
        let ds2 := r2.takeWhile isDigitChar
        (ds ++ ['.'] ++ ds2) :: findNumberTokens fuel (r2.drop ds2.length)
      | _ => ds :: findNumberTokens fuel r1
    else findNumberTokens fuel rest

/-- `re.findall(r'\b[A-Za-z]{3,}\b', s)`: maximal alphabetic runs of length
at least 3 delimited by non-word characters. -/
def findAlphaWords : Nat → Option Char → Str → List Str
  | 0, _, _ => []
  | _ + 1, _, [] => []
  | fuel + 1, prev, c :: rest =>
    if isAlphaChar c && boundaryOk prev then
      let run := (c :: rest).takeWhile isAlphaChar
      let r1 := (c :: rest).drop run.length
      if 3 ≤ run.length && boundaryOk r1.head? then
        run :: findAlphaWords fuel (some (run.getLastD c)) r1
      else
        findAlphaWords fuel (some (run.getLastD c)) r1
    else findAlphaWords fuel (some c) rest

/-- `is_sentence_relevant_to_field` from the source (the spec's §4.3
Candidate Scorer).  The semantic-similarity step is skipped in the modelled
configuration (`SEMANTIC_AVAILABLE = False`). -/
def is_sentence_relevant_to_field (field sentence value : Str)
    (semantic_groups anti_patterns : List (Str × List Str))
    (threshold : ℚ) (use_adaptive_threshold : Bool) : Bool × ℚ :=
  if field.isEmpty || sentence.isEmpty then (false, 0) else
  let field_lower := pyLower field
  let sentence_lower := pyLower sentence
  let field_clean := underscoresToSpaces field_lower
  let field_words := (pySplitWs field_clean).filter (fun w => w.length > 2)
  let value_terms : List Str :=
    if value.isEmpty then [] else
    let value_clean := pyStrip value
    let numeric_matches := findNumberTokens (value_clean.length + 1) value_clean
    let text_words := findAlphaWords (value_clean.length + 1) none value_clean
    numeric_matches ++ text_words ++ (if value_clean.length > 2 then [value_clean] else [])
  -- STEP 1: anti-patterns for field-related categories
  if anti_patterns.any (fun pt =>
      field_words.any (fun fw => containsSub fw pt.1) &&
      pt.2.any (fun p => containsSub p sentence_lower)) then (false, 0) else
  -- STEP 2: multi-domain reduction factor
  let dd := detect_multi_domain_sentence sentence semantic_groups
  let domain_reduction_factor : ℚ := if dd.1 > 1 then 1 / (dd.1 : ℚ) else 1
  -- STEP 3: length gate
  let word_count := (pySplitWs sentence).length
  if word_count > 40 then (false, 0) else
  if word_count < 5 then (false, 0) else
  -- STEP 4: relevance score
  let direct_matches := field_words.countP (fun w => containsSub w sentence_lower)
  let value_matches := value_terms.countP (fun t =>
    t.length > 2 && containsSub (pyLower t) sentence_lower)
  let groupScore : ℚ := (semantic_groups.map (fun g =>
    if field_words.any (fun fw => containsSub fw g.1 || containsSub g.1 fw) then
      let gm := g.2.countP (fun kw => containsSub kw sentence_lower)
      if gm > 0 then min (3/10 : ℚ) ((gm : ℚ) * (1/10)) else 0
    else 0)).sum
  let base : ℚ :=
    (25 : ℚ)/100 * (direct_matches : ℚ) + (2 : ℚ)/10 * (value_matches : ℚ) + groupScore
  -- STEP 5: proximity
  let proxScore : ℚ :=
    if !field_words.isEmpty && !value_terms.isEmpty then
      calculate_keyword_proximity field_words value_terms sentence * (2/10)
    else 0
  -- STEP 6: semantic similarity unavailable; STEP 7: domain reduction
  let reduced := (base + proxScore) * domain_reduction_factor
  -- STEP 8: bonus
  let withBonus := if direct_matches > 0 && value_matches > 0 then reduced + 1/10 else reduced
  let final_score := min 1 (max 0 withBonus)
  -- STEP 9: adaptive threshold
  let adaptive_threshold :=
    if use_adaptive_threshold then determine_adaptive_threshold field value else threshold
  (decide (adaptive_threshold ≤ final_score), final_score)

/-- `normalize_field_name` from the source. -/
def normalize_field_name (field : Str) : Str :=
  if field.isEmpty then [] else
  let t1 := (pyLower field).map (fun c => if c = '_' || c = '.' || c = '-' then ' ' else c)
  let suffixes := ["1hfy23", "1hfy22", "fy23", "fy22", "current", "previous", "amount",
                   "percentage"].map String.toList
  let t2 :=
    match (List.range t1.length).find? (fun i =>
      let rest := t1.drop i
      let ws := rest.takeWhile isWsChar
      !ws.isEmpty && suffixes.any (fun suf => rest.drop ws.length = suf)) with
    | some i => t1.take i
    | none => t1
  pyStrip (subScan ocrStep16 (t2.length + 1) t2)

/-! ## Clause splitting and trimming -/

/-- Sequencing a list of matchers. -/
def mSeqs (ms : List Matcher) : Matcher :=
  ms.foldr mSeq (fun s => [s])

def mWs : Matcher := mStar isWsChar

def mWsPlus : Matcher := mPlus isWsChar

/-- `[\w\s]+`. -/
def mWordSpacePlus : Matcher := mPlus (fun c => isWordChar c || isWsChar c)

/-- `[\w\s]*`. -/
def mWordSpaceStar : Matcher := mStar (fun c => isWordChar c || isWsChar c)

/-- `[A-Za-z\s]+`. -/
def mAlphaSpacePlus : Matcher := mPlus (fun c => isAlphaChar c || isWsChar c)

/-- `(?:aud|usd|\$)?`. -/
def mCurrencyOpt : Matcher :=
  mOpt (mAlts [mLitCI ("aud").toList, mLitCI ("usd").toList, mLit ("$").toList])

/-- `\([^)]+\)`. -/
def mParenPlus : Matcher :=
  mSeqs [mLit ("(").toList, mPlus (fun c => c ≠ ')'), mLit (")").toList]

/-- `[\d,\.]+`. -/
def mNumRunPlus : Matcher := mPlus (fun c => isDigitChar c || c = ',' || c = '.')

/-- Enhanced pattern 1 (EPS with `of` and comparative):
`[\w\s]+earnings per share\s+of\s+CORE\s*cents?\s*per share\s*\([^)]+\)`. -/
def patEpsOf (core : Str) : Matcher :=
  mSeqs [mWordSpacePlus, mLitCI ("earnings per share").toList, mWsPlus,
         mLitCI ("of").toList, mWsPlus, mLitCI core, mWs,
         mOpt (mSeq (mLitCI ("cent").toList) (mOpt (mLitCI ("s").toList))), mWs,
         mLitCI ("per share").toList, mWs, mParenPlus]

/-- Enhanced pattern 2 (EPS without `of`):
`[\w\s]*earnings per share\s+CORE\s*cents?\s*\([^)]+\)`. -/
def patEpsPlain (core : Str) : Matcher :=
  mSeqs [mWordSpaceStar, mLitCI ("earnings per share").toList, mWsPlus, mLitCI core, mWs,
         mOpt (mSeq (mLitCI ("cent").toList) (mOpt (mLitCI ("s").toList))), mWs, mParenPlus]

/-- Enhanced pattern 3 (NPAT/profit):
`[\w\s]+(?:npat|profit)\s+of\s+(?:aud|usd|\$)?\s*CORE\s*(?:mn|million)?\s*\([^)]+\)`. -/
def patNpat (core : Str) : Matcher :=
  mSeqs [mWordSpacePlus, mAlts [mLitCI ("npat").toList, mLitCI ("profit").toList], mWsPlus,
         mLitCI ("of").toList, mWsPlus, mCurrencyOpt, mWs, mLitCI core, mWs,
         mOpt (mAlts [mLitCI ("mn").toList, mLitCI ("million").toList]), mWs, mParenPlus]

/-- Enhanced pattern 4 (general metric); the alternation differs between
`find_minimal_relevant_clause` (no `guidance`) and `extract_metric_phrase`
(with `guidance`), so the metric list is a parameter:
`[\w\s]+(?:ALTS)\s+of\s+CORE\s*[%]?\s*\([^)]+\)`. -/
def patMetric (alts : List Str) (core : Str) : Matcher :=
  mSeqs [mWordSpacePlus, mAlts (alts.map mLitCI), mWsPlus, mLitCI ("of").toList, mWsPlus,
         mLitCI core, mWs, mOpt (mLit ("%").toList), mWs, mParenPlus]

/-- Legacy pattern 5 of `extract_metric_phrase`:
`[A-Za-z\s]+(?:npat|profit|earnings|revenue|margin|dividend|guidance)\s+of\s+`
`(?:aud|usd|\$)?\s*CORE[^(]*\([^)]*(?:aud|usd|\$)?\s*[\d,\.]+[^)]*\)`
`(?:[^.]*(?:up|down|increase|decrease)\s+[\d,\.]+%)?`. -/
def patLegacy (core : Str) : Matcher :=
  mSeqs [mAlphaSpacePlus,
         mAlts (["npat", "profit", "earnings", "revenue", "margin", "dividend",
                 "guidance"].map (fun w => mLitCI w.toList)),
         mWsPlus, mLitCI ("of").toList, mWsPlus, mCurrencyOpt, mWs, mLitCI core,
         mStar (fun c => c ≠ '('), mLit ("(").toList, mStar (fun c => c ≠ ')'),
         mCurrencyOpt, mWs, mNumRunPlus, mStar (fun c => c ≠ ')'), mLit (")").toList,
         mOpt (mSeqs [mStar (fun c => c ≠ '.'),
                      mAlts (["up", "down", "increase", "decrease"].map (fun w => mLitCI w.toList)),
                      mWsPlus, mNumRunPlus, mLit ("%").toList])]

/-- `\([^)]*(?:1hfy\d+|fy\d+|20\d+)[^)]*\)` (the trailing-comparative
detector, also used for the bracket extension of `extract_metric_phrase`,
there preceded by `\s*`). -/
def patComparativeParen : Matcher :=
  mSeqs [mLit ("(").toList, mStar (fun c => c ≠ ')'),
         mAlts [mSeq (mLitCI ("1hfy").toList) (mPlus isDigitChar),
                mSeq (mLitCI ("fy").toList) (mPlus isDigitChar),
                mSeq (mLitCI ("20").toList) (mPlus isDigitChar)],
         mStar (fun c => c ≠ ')'), mLit (")").toList]

/-- Existence of `\b(?:aud|usd|\$)\s*[\d,\.]+\s*(?:mn|bn|million|billion)`.
The `\b` is a genuine word boundary: for the `aud`/`usd` branches it requires
a non-word (or absent) preceding character; for the `\$` branch it requires a
*word* preceding character (since `$` itself is a non-word character). -/
def currencyBonusExists (s : Str) : Bool :=
  (List.range s.length).any (fun i =>
    let prev := if i = 0 then none else (s.take i).getLast?
    let rest := s.drop i
    let afterCur : Option Str :=
      if ("aud").toList.isPrefixOf rest || ("usd").toList.isPrefixOf rest then
        if boundaryOk prev then some (rest.drop 3) else none
      else if ("$").toList.isPrefixOf rest then
        if (prev.map isWordChar).getD false then some (rest.drop 1) else none
      else none
    match afterCur with
    | none => false
    | some r1 =>
      let r2 := r1.dropWhile isWsChar
      let run := r2.takeWhile (fun c => isDigitChar c || c = ',' || c = '.')
      if run.isEmpty then false else
      let r3 := (r2.drop run.length).dropWhile isWsChar
      ("mn").toList.isPrefixOf r3 || ("bn").toList.isPrefixOf r3 ||
      ("million").toList.isPrefixOf r3 || ("billion").toList.isPrefixOf r3)

/-- First match of `[\d,\.]+` (used for `core_number`). -/
def firstNumRun : Str → Str
  | [] => []
  | c :: rest =>
    if isDigitChar c || c = ',' || c = '.' then
      (c :: rest).takeWhile (fun c => isDigitChar c || c = ',' || c = '.')
    else firstNumRun rest

/-- Python `" ".join(l)`. -/
def joinSpace (l : List Str) : Str :=
  match l with
  | [] => []
  | x :: xs => xs.foldl (fun acc y => acc ++ [' '] ++ y) x

/-- Python `l[k:]` on lists with Python index semantics (negative indices
count from the end, clamped). -/
def pyDropSlice (l : List Str) (k : Int) : List Str :=
  if 0 ≤ k then l.drop k.toNat
  else l.drop (((l.length : Int) + k).toNat)

/-- `re.sub(r'\([^)]*\)', placeholder, ...)`: replace each parenthetical with
a fresh `__PAREN_i__` placeholder, returning the protected string and the
placeholder map in insertion order. -/
def protectParens : Nat → Nat → Str → Str × List (Str × Str)
  | 0, _, s => (s, [])
  | _ + 1, _, [] => ([], [])
  | fuel + 1, counter, '(' :: rest =>
    let inner := rest.takeWhile (fun c => c ≠ ')')
    match rest.drop inner.length with
    | ')' :: after =>
      let ph := ("__PAREN_").toList ++ natDigits counter ++ ("__").toList
      let (s', m') := protectParens fuel (counter + 1) after
      (ph ++ s', (ph, '(' :: inner ++ [')']) :: m')
    | _ =>
      let (s', m') := protectParens fuel counter rest
      ('(' :: s', m')
  | fuel + 1, counter, c :: rest =>
    let (s', m') := protectParens fuel counter rest
    (c :: s', m')

/-- Clause-split delimiter 1: `;\s+`. -/
def clauseDelim1 (s : Str) : Option Str :=
  match s with
  | ';' :: rest =>
    let ws := rest.takeWhile isWsChar
    if ws.isEmpty then none else some (rest.drop ws.length)
  | _ => none

/-- Clause-split delimiter 2:
`\s+(?:while|whereas|however|although|though)\s+` (delimiter consumed,
conjunction included). -/
def clauseDelim2 (s : Str) : Option Str :=
  let ws0 := s.takeWhile isWsChar
  if ws0.isEmpty then none else
  let r := s.drop ws0.length
  let conjs := ["while", "whereas", "however", "although", "though"].map String.toList
  match conjs.find? (fun cj => cj.isPrefixOf r) with
  | some cj =>
    let r2 := r.drop cj.length
    let ws1 := r2.takeWhile isWsChar
    if ws1.isEmpty then none else some (r2.drop ws1.length)
  | none => none

/-- Clause-split delimiter 3: `,\s+(?=(?:and|but|or)\s)`. -/
def clauseDelim3 (s : Str) : Option Str :=
  match s with
  | ',' :: rest =>
    let ws := rest.takeWhile isWsChar
    if ws.isEmpty then none else
    let r := rest.drop ws.length
    if (["and", "but", "or"].map String.toList).any (fun w =>
        w.isPrefixOf r && ((r.drop w.length).head?.map isWsChar).getD false) then
      some r
    else none
  | _ => none

/-- `re.split` scan for a delimiter without lookbehind. -/
def splitGo (delim : Str → Option Str) : Nat → Str → Str → List Str
  | 0, acc, s => [acc.reverse ++ s]
  | _ + 1, acc, [] => [acc.reverse]
  | fuel + 1, acc, s@(c :: rest) =>
    match delim s with
    | some rem => acc.reverse :: splitGo delim fuel [] rem
    | none => splitGo delim fuel (c :: acc) rest

def splitOnDelim (delim : Str → Option Str) (s : Str) : List Str :=
  splitGo delim (s.length + 1) [] s

/-- `split_into_clauses` from the source: protect parentheticals with
placeholders, split conservatively on the three clause patterns (only
clauses longer than 20 characters are split further), restore the
parentheticals, and keep clauses longer than 10 characters. -/
def split_into_clauses (sentence : Str) : List Str :=
  if sentence.isEmpty then [] else
  let (protected_sentence, paren_map) := protectParens (sentence.length + 1) 0 sentence
  let applyPattern := fun (clauses : List Str) (delim : Str → Option Str) =>
    clauses.flatMap (fun clause =>
      if (pyStrip clause).length > 20 then
        ((splitOnDelim delim clause).map pyStrip).filter (fun p => !p.isEmpty)
      else [clause])
  let clauses := [clauseDelim1, clauseDelim2, clauseDelim3].foldl applyPattern
    [protected_sentence]
  let restored := clauses.map (fun clause =>
    paren_map.foldl (fun c ph => pyReplace (c.length + 1) ph.1 ph.2 c) clause)
  let final_clauses := (restored.filter (fun c => (pyStrip c).length > 10)).map pyStrip
  if final_clauses.isEmpty then [sentence] else final_clauses

/-- The `financial_metrics` keyword list of `find_minimal_relevant_clause`
(in source order; the loop takes the first metric that is both present in
the clause and related to the field). -/
def financial_metrics : List Str :=
  ["underlying earnings per share", "reported earnings per share", "basic earnings per share",
   "underlying npat", "reported npat", "npat", "pre-tax profit", "profit",
   "earnings", "revenue", "ebit margin", "margin", "dividend", "guidance"].map String.toList

/-- The backward-expansion loop of `find_minimal_relevant_clause`: walk the
clauses before position `i` (nearest first), accumulating text, until a
clause containing a field word is found (take its last up-to-10 words, minus
the words already collected) or more than 20 words have been collected. -/
def expansionLoop (field_words : List Str) :
    List Str → Nat → Str → Option Str
  | [], _, _ => none
  | prev :: rest, collected, acc =>
    let prev_words := pySplitWs prev
    if field_words.any (fun fw => containsSub fw (pyLower prev)) then
      let wtt : Int := min ((10 : Int) - (collected : Int)) (prev_words.length : Int)
      let expansion_words :=
        if wtt < (prev_words.length : Int) then pyDropSlice prev_words (-wtt)
        else prev_words
      some (joinSpace expansion_words ++ [' '] ++ acc)
    else
      let acc2 := prev ++ [' '] ++ acc
      let collected2 := collected + prev_words.length
      if collected2 > 20 then none
      else expansionLoop field_words rest collected2 acc2

/-- Pattern component of the clause score (+2.0 when one of the enhanced
patterns matches). -/
def csPatScore (patterns : List Matcher) (clause_lower : Str) : ℚ :=
  if patterns.any (fun m => (mSearch m clause_lower).isSome) then 2 else 0

/-- Number of (length > 2) field words present in the clause. -/
def csFieldHits (field_words : List Str) (clause_lower : Str) : Nat :=
  field_words.countP (fun fw => fw.length > 2 && containsSub fw clause_lower)

/-- The first related financial metric present in the clause. -/
def csMetricHit (field_words : List Str) (normalized_field clause_lower : Str) :
    Option Str :=
  financial_metrics.find? (fun metric =>
    containsSub metric clause_lower &&
    (field_words.any (fun fw => containsSub fw metric) ||
     (pySplitWs metric).any (fun mw => containsSub mw normalized_field)))

/-- Value component of the clause score: exact match 1.0, core-number match
0.8, else no match. -/
def csValuePair (value_clean core_num clause_lower : Str) : Bool × ℚ :=
  if containsSub value_clean clause_lower then (true, 1)
  else if !core_num.isEmpty && containsSub core_num clause_lower then (true, 8/10)
  else (false, 0)

/-- The adjacent-clause relevance probe of the long-numeric-clause penalty. -/
def csAdjacentRelevant (clauses : List Str) (i : Nat) (field_words : List Str)
    (value_clean core_num : Str) : Bool :=
  let check := fun (c : Option Str) =>
    match c with
    | some cl =>
      let l := pyLower cl
      field_words.any (fun fw => containsSub fw l) &&
      (containsSub value_clean l || (!core_num.isEmpty && containsSub core_num l))
    | none => false
  (if i > 0 then check (clauses.get? (i - 1)) else false) || check (clauses.get? (i + 1))

/-- The size preference of the clause score (+0.2 for 20–100 characters,
×0.8 beyond 150). -/
def csSizeAdjust (clause : Str) (q : ℚ) : ℚ :=
  if 20 ≤ clause.length && clause.length ≤ 100 then q + 2/10
  else if clause.length > 150 then q * (8/10)
  else q

/-- The additive clause score before penalties: pattern, field-token,
metric, value, expansion, comparative and currency components. -/
def csBase (patterns : List Matcher) (field_words : List Str)
    (normalized_field value_clean core_num clause_lower : Str) (expBonus : ℚ) : ℚ :=
  csPatScore patterns clause_lower +
  (3 : ℚ)/10 * (csFieldHits field_words clause_lower : ℚ) +
  (if (csMetricHit field_words normalized_field clause_lower).isSome then 5/10 else 0) +
  (csValuePair value_clean core_num clause_lower).2 + expBonus +
  (if (mSearch patComparativeParen clause_lower).isSome then 4/10 else 0) +
  (if currencyBonusExists clause_lower then 3/10 else 0)

/-- The long-numeric-clause penalty (×0.7 without adjacent corroboration). -/
def csPenalized (clauses : List Str) (i : Nat) (field_words : List Str)
    (value_clean core_num clause : Str) (b : ℚ) : ℚ :=
  if value_clean.any isDigitChar && (pySplitWs clause).length > 15 then
    if csAdjacentRelevant clauses i field_words value_clean core_num then b
    else b * (7/10)
  else b

/-- Scoring of a single clause inside `find_minimal_relevant_clause`;
returns `none` when the clause lacks the required field+value matches. -/
def clauseScore (clauses : List Str) (i : Nat) (clause : Str)
    (field_words : List Str) (normalized_field value_clean core_num : Str)
    (patterns : List Matcher) : Option (Str × ℚ) :=
  let clause_lower := pyLower clause
  let hasFieldA := csFieldHits field_words clause_lower > 0
  let hasFieldB := (csMetricHit field_words normalized_field clause_lower).isSome
  let hasValue := (csValuePair value_clean core_num clause_lower).1
  let expansionRes : Str × ℚ × Bool :=
    if hasValue && !(hasFieldA || hasFieldB) then
      match expansionLoop field_words ((clauses.take i).reverse) 0 [] with
      | some e => (e, 4/10, true)
      | none => ([], 0, false)
    else ([], 0, hasFieldA || hasFieldB)
  let expansion_text := expansionRes.1
  if !(expansionRes.2.2 && hasValue) then none else
  let base := csBase patterns field_words normalized_field value_clean core_num
    clause_lower expansionRes.2.1
  let base2 := csPenalized clauses i field_words value_clean core_num clause base
  let score3 := csSizeAdjust clause base2
  let final_clause := if expansion_text.isEmpty then clause else expansion_text ++ clause
  some (pyStrip final_clause, score3)

/-- Stable descending insertion (by a rational key): ties and smaller keys go
after, preserving original order — the behaviour of Python's stable
`sort(key=..., reverse=True)`. -/
def insDesc (key : α → ℚ) (x : α) : List α → List α
  | [] => [x]
  | y :: ys => if key x ≤ key y then y :: insDesc key x ys else x :: y :: ys

def sortDescBy (key : α → ℚ) (l : List α) : List α :=
  l.foldl (fun acc x => insDesc key x acc) []

/-- The four enhanced patterns of `find_minimal_relevant_clause` (only built
when a core number exists). -/
def fmcPatterns (core : Str) : List Matcher :=
  [patEpsOf core, patEpsPlain core, patNpat core,
   patMetric (["margin", "dividend", "revenue"].map String.toList) core]

/-- The `financial_starters` list of `expand_clause_for_completeness`. -/
def financial_starters : List Str :=
  ["underlying", "reported", "npat", "ebitda", "ebit", "profit", "earnings",
   "revenue", "margin", "dividend", "guidance", "leverage", "interim", "pre-tax"].map
    String.toList

/-- The anchored fragment patterns of `expand_clause_for_completeness`. -/
def isFragmentStart (clause_lower : Str) : Bool :=
  -- `^of\s+(?:aud|usd|\$)`
  (match clause_lower with
   | 'o' :: 'f' :: rest =>
     let ws := rest.takeWhile isWsChar
     if ws.isEmpty then false else
     let r := rest.drop ws.length
     ("aud").toList.isPrefixOf r || ("usd").toList.isPrefixOf r ||
     ("$").toList.isPrefixOf r
   | _ => false) ||
  -- `^per\s+share`
  (match clause_lower with
   | 'p' :: 'e' :: 'r' :: rest =>
     let ws := rest.takeWhile isWsChar
     !ws.isEmpty && ("share").toList.isPrefixOf (rest.drop ws.length)
   | _ => false) ||
  -- `^ratio\s+of`
  (if ("ratio").toList.isPrefixOf clause_lower then
     let rest := clause_lower.drop 5
     let ws := rest.takeWhile isWsChar
     !ws.isEmpty && ("of").toList.isPrefixOf (rest.drop ws.length)
   else false) ||
  -- `^tax\s+`
  (if ("tax").toList.isPrefixOf clause_lower then
     !((clause_lower.drop 3).takeWhile isWsChar).isEmpty
   else false)

/-- `expand_clause_for_completeness` from the source. -/
def expand_clause_for_completeness (clause field _value : Str)
    (all_clauses : List Str) : Str :=
  if clause.isEmpty then clause else
  let clause_lower := pyStrip (pyLower clause)
  if financial_starters.any (fun st => startsWith st clause_lower) then clause else
  let is_fragment := isFragmentStart clause_lower
  let normalized_field := normalize_field_name field
  let field_words := pySplitWs normalized_field
  let combined :=
    if is_fragment && !all_clauses.isEmpty then
      (all_clauses.filterMap (fun other =>
        if other = clause then none else
        let other_lower := pyLower other
        let has_field_terms := field_words.any (fun fw =>
          fw.length > 2 && containsSub fw other_lower)
        let has_metric_terms := financial_starters.any (fun st =>
          containsSub st other_lower)
        if has_field_terms || has_metric_terms then
          let comb := pyStrip other ++ [' '] ++ pyStrip clause
          if comb.length ≤ 150 then some comb else none
        else none)).head?
    else none
  match combined with
  | some c => c
  | none =>
    if startsWith ("of ").toList clause_lower then
      if containsSub ("npat").toList normalized_field then ("NPAT ").toList ++ clause
      else if containsSub ("profit").toList normalized_field then ("profit ").toList ++ clause
      else if containsSub ("earnings").toList normalized_field then ("earnings ").toList ++ clause
      else if containsSub ("revenue").toList normalized_field then ("revenue ").toList ++ clause
      else if containsSub ("margin").toList normalized_field then ("margin ").toList ++ clause
      else clause
    else clause

/-! ## Numeric value detection -/

def isNumClassChar (c : Char) : Bool := isDigitChar c || c = ',' || c = '.'

/-- Existence of `[\d,\.]+\s*(?:UNIT)` for a list of unit literals.  (A unit
never starts with a `[\d,.]` or whitespace character, so only maximal runs
need to be considered; scanning every start position is equivalent to
`re.search`.) -/
def numRunThenUnits (units : List Str) (s : Str) : Bool :=
  (List.range s.length).any (fun i =>
    let rest := s.drop i
    let run := rest.takeWhile isNumClassChar
    if run.isEmpty then false else
    let r2 := (rest.drop run.length).dropWhile isWsChar
    units.any (fun u => u.isPrefixOf r2))

/-- Existence of `(?:PREFIXES)\s*[\d,\.]+`. -/
def prefixThenNumRun (prefixes : List Str) (s : Str) : Bool :=
  (List.range s.length).any (fun i =>
    let rest := s.drop i
    match prefixes.find? (fun p => p.isPrefixOf rest) with
    | some p =>
      let r2 := (rest.drop p.length).dropWhile isWsChar
      (r2.head?.map isNumClassChar).getD false
    | none => false)

/-- `^\d+\.?\d*$` (full match). -/
def isPureNumber (s : Str) : Bool :=
  let ds := s.takeWhile isDigitChar
  if ds.isEmpty then false else
  match s.drop ds.length with
  | [] => true
  | '.' :: rest => rest.all isDigitChar
  | _ => false

/-- Existence of `[\d,\.]+\s*to\s*[\d,\.]+`. -/
def numRangeExists (s : Str) : Bool :=
  (List.range s.length).any (fun i =>
    let rest := s.drop i
    let run := rest.takeWhile isNumClassChar
    if run.isEmpty then false else
    let r2 := (rest.drop run.length).dropWhile isWsChar
    if ("to").toList.isPrefixOf r2 then
      let r3 := (r2.drop 2).dropWhile isWsChar
      (r3.head?.map isNumClassChar).getD false
    else false)

/-- Existence of `[\d,\.]+\s*(?:basis\s*points|bps)`. -/
def basisPointsExists (s : Str) : Bool :=
  (List.range s.length).any (fun i =>
    let rest := s.drop i
    let run := rest.takeWhile isNumClassChar
    if run.isEmpty then false else
    let r2 := (rest.drop run.length).dropWhile isWsChar
    (("basis").toList.isPrefixOf r2 &&
      ("points").toList.isPrefixOf ((r2.drop 5).dropWhile isWsChar)) ||
    ("bps").toList.isPrefixOf r2)

/-- `is_numeric_value` from the source. -/
def is_numeric_value (value : Str) : Bool :=
  if value.isEmpty then false else
  let value_str := pyStrip value
  let value_lower := pyLower value_str
  let p1 := numRunThenUnits (["mn", "bn", "m", "b", "%", "million", "billion", "cents",
    "dollar"].map String.toList) value_lower
  let p2 := prefixThenNumRun (["aud", "usd", "gbp", "eur", "$"].map String.toList) value_lower
  let p3 := numRunThenUnits (["increase", "decrease", "up", "down"].map String.toList)
    value_lower
  let p4 := isPureNumber value_lower
  let p5 := numRangeExists value_lower
  let p6 := basisPointsExists value_lower
  if p1 || p2 || p3 || p4 || p5 || p6 then true else
  let numeric_chars := value_str.countP isNumClassChar
  let total_chars := (value_str.filter (fun c => c ≠ ' ')).length
  if total_chars > 0 then decide ((total_chars : ℚ) * (4/10) < (numeric_chars : ℚ)) else false

/-! ## Numeric context extractors -/

/-- `re.finditer` for a matcher: non-overlapping spans, leftmost first,
resuming at the end of each match. -/
def mFindIterGo (m : Matcher) (s : Str) : Nat → Nat → List (Nat × Nat)
  | 0, _ => []
  | fuel + 1, start =>
    if start > s.length then [] else
    match (List.range (s.length - start + 1)).findSome? (fun d =>
      let i := start + d
      match m (s.drop i) with
      | [] => none
      | rem :: _ => some (i, s.length - rem.length)) with
    | none => []
    | some (i, e) => (i, e) :: mFindIterGo m s fuel (if i < e then e else i + 1)

def mFindIter (m : Matcher) (s : Str) : List (Nat × Nat) :=
  mFindIterGo m s (s.length + 1) 0

/-- The optional-unit suffix of `extract_numeric_context_window`:
`[\s]*(?:mn|bn|m|b|%|million|billion|cents|dollars?|aud|usd|gbp|eur)?`. -/
def mUnitOpt : Matcher :=
  mSeq mWs (mOpt (mAlts (
    (["mn", "bn", "m", "b", "%", "million", "billion", "cents"].map
      (fun w => mLitCI w.toList)) ++
    [mSeq (mLitCI ("dollar").toList) (mOpt (mLitCI ("s").toList))] ++
    (["aud", "usd", "gbp", "eur"].map (fun w => mLitCI w.toList)))))

/-- Boundary characters `.;,\n` of the window expansion. -/
def isWindowBoundary (c : Char) : Bool := c = '.' || c = ';' || c = ',' || c = '\n'

/-- The left/right boundary scans of `extract_numeric_context_window`
(`range(start_pos, max(0, start_pos-50), -1)` and
`range(end_pos, min(len, end_pos+50))`, exclusive end bounds as in Python). -/
def windowLeftBoundary (text : Str) (start_pos : Nat) : Nat :=
  let lo := start_pos - 50
  match ((List.range (start_pos - lo)).map (fun k => start_pos - k)).find? (fun idx =>
    ((text.get? idx).map isWindowBoundary).getD false) with
  | some idx => idx + 1
  | none => start_pos

def windowRightBoundary (text : Str) (end_pos : Nat) : Nat :=
  let hi := min text.length (end_pos + 50)
  match ((List.range (hi - end_pos)).map (fun k => end_pos + k)).find? (fun idx =>
    ((text.get? idx).map isWindowBoundary).getD false) with
  | some idx => idx
  | none => end_pos

/-- Stable descending sort by confidence only. -/
def sortByConfDesc (l : List (Str × ℚ)) : List (Str × ℚ) := sortDescBy Prod.snd l

/-- Stable descending sort by the key `(confidence, -length)` (Python
`sorted(..., key=lambda x: (x[1], -len(x[0])), reverse=True)`). -/
def insConfLen (x : Str × ℚ) : List (Str × ℚ) → List (Str × ℚ)
  | [] => [x]
  | y :: ys =>
    if x.2 < y.2 || (x.2 = y.2 && y.1.length ≤ x.1.length) then y :: insConfLen x ys
    else x :: y :: ys

def sortByConfLenDesc (l : List (Str × ℚ)) : List (Str × ℚ) :=
  l.foldl (fun acc x => insConfLen x acc) []

/-- Deduplication by lower-cased stripped text, keeping first occurrences. -/
def dedupByLower : List (Str × ℚ) → List Str → List (Str × ℚ)
  | [], _ => []
  | (c, q) :: rest, seen =>
    let key := pyStrip (pyLower c)
    if seen.contains key then dedupByLower rest seen
    else (c, q) :: dedupByLower rest (key :: seen)

/-- `extract_numeric_context_window` from the source (`window_size = 30`). -/
def extract_numeric_context_window (value full_text : Str) : List (Str × ℚ) :=
  let normalized_value := pyStrip value
  let core := firstNumRun normalized_value
  if core.isEmpty then [] else
  -- patterns 1–3; the first carries confidence 0.8, the others 0.6
  let pats : List (Matcher × ℚ) :=
    [(mLitCI normalized_value, 8/10),
     (mSeq (mLitCI core) mUnitOpt, 6/10),
     (mSeqs [mOpt (mAlts (["aud", "usd", "gbp", "eur"].map (fun w => mLitCI w.toList))),
             mWs, mLitCI core, mUnitOpt], 6/10)]
  let contexts := pats.flatMap (fun pc =>
    (mFindIter pc.1 full_text).filterMap (fun span =>
      let start_pos := span.1 - 30
      let end_pos := min full_text.length (span.2 + 30)
      let left := windowLeftBoundary full_text start_pos
      let right := windowRightBoundary full_text end_pos
      let final_context := pyStrip (slice full_text left right)
      if !final_context.isEmpty && final_context.length > 10 then
        some (final_context, pc.2)
      else none))
  (dedupByLower (sortByConfDesc contexts) []).take 3

/-- `\b`-bounded first occurrence of an anchor term
(`re.search(r'\b' + re.escape(anchor) + r'\b', line_lower)`). -/
def anchorSearch (anchor line_lower : Str) : Option Nat :=
  (List.range (line_lower.length + 1)).find? (fun i =>
    let prev := if i = 0 then none else (line_lower.take i).getLast?
    let rest := line_lower.drop i
    boundaryOk prev && anchor.isPrefixOf rest &&
    boundaryOk (rest.drop anchor.length).head?)

/-- The anchor-selection loop of `extract_metric_phrase`: the anchor whose
first `\b`-bounded occurrence starts furthest right (strict comparison, so
the earliest anchor in list order wins ties). -/
def bestAnchor (anchors : List Str) (line_lower : Str) : Option (Str × Nat) :=
  anchors.foldl (fun best anchor =>
    match anchorSearch (pyLower anchor) line_lower with
    | some pos =>
      match best with
      | some (_, bpos) => if pos > bpos then some (anchor, pos) else best
      | none => some (anchor, pos)
    | none => best) none

/-- The search patterns of `extract_metric_phrase` (exact value; core with a
required unit; currency prefix with core). -/
def metricSearchPatterns (normalized_value core : Str) : List Matcher :=
  [mLitCI normalized_value,
   mSeq (mLitCI core) (mSeq mWs (mAlts
     (["mn", "bn", "m", "b", "%", "million", "billion", "cents"].map
       (fun w => mLitCI w.toList)))),
   mSeqs [mAlts (["aud", "usd", "gbp", "eur", "$"].map (fun w => mLitCI w.toList)),
          mWs, mLitCI core]]

/-- `\s*` + comparative-parenthetical (the bracket-extension pattern
`\s*\([^)]*(?:1hfy\d+|fy\d+|20\d+)[^)]*\)`). -/
def mBracketExt : Matcher := mSeq mWs patComparativeParen

/-- The percentage-change extension pattern
`\s*,?\s*(?:up|down|increase|decrease)\s+[\d,\.]+%(?=\s|$|\.)`. -/
def mChangeExt : Matcher :=
  mSeqs [mWs, mOpt (mLit (",").toList), mWs,
         mAlts (["up", "down", "increase", "decrease"].map (fun w => mLitCI w.toList)),
         mWsPlus, mNumRunPlus, mLit ("%").toList,
         mLookahead (fun s =>
           if s.isEmpty then [[]]
           else if (s.head?.map (fun c => isWsChar c || c = '.')).getD false then [s]
           else [])]

/-- `re.sub(r'[,;]\s*$', '', phrase)`: drop one trailing `,`/`;` (with
trailing whitespace). -/
def dropTrailingCommaSemi (s : Str) : Str :=
  match s.reverse.drop ((s.reverse.takeWhile isWsChar).length) with
  | c :: rest => if c = ',' || c = ';' then rest.reverse else s
  | [] => s

/-- `^[•\-\*\+]\s*` → `''` (bullet strip of the pair extractor — note: no
`†`/`‡` in this character class, unlike the sentence cleanup). -/
def dropLeadingBulletNarrow (s : Str) : Str :=
  match s with
  | c :: rest =>
    if c = '•' || c = '-' || c = '*' || c = '+' then rest.dropWhile isWsChar else s
  | [] => s

/-- The five enhanced patterns of `extract_metric_phrase`. -/
def empPatterns (core : Str) : List Matcher :=
  [patEpsOf core, patEpsPlain core, patNpat core,
   patMetric (["margin", "dividend", "revenue", "guidance"].map String.toList) core,
   patLegacy core]

/-- The connector list of the windowed fallback of `extract_metric_phrase`. -/
def metricConnectors : List Str :=
  ["of", "for", "at", "was", "is", "to", "from", "with"].map String.toList

/-- `re.search(r'\b' + conn + r'\s*$', prefix_text, re.IGNORECASE)`: leftmost
`\b`-bounded occurrence of the connector followed only by whitespace up to
the end; returns its start. -/
def connectorSearch (conn prefix_text : Str) : Option Nat :=
  (List.range (prefix_text.length + 1)).find? (fun i =>
    let prev := if i = 0 then none else (prefix_text.take i).getLast?
    let rest := pyLower (prefix_text.drop i)
    boundaryOk prev && conn.isPrefixOf rest &&
    (rest.drop conn.length).all isWsChar)

/-- Processing of one line inside `extract_metric_phrase`, returning the
phrases contributed by that line. -/
def metricPhraseLine (anchors : List Str) (core normalized_value : Str)
    (line_clean : Str) : List (Str × ℚ) :=
  -- enhanced financial patterns first
  let enhanced := (empPatterns core).findSome? (fun m =>
    match mSearch m line_clean with
    | some span =>
      let phrase := pyStrip (slice line_clean span.1 span.2)
      if !phrase.isEmpty && phrase.length > 10 then some phrase else none
    | none => none)
  match enhanced with
  | some phrase => [(phrase, 1)]
  | none =>
    -- locate the value
    match (metricSearchPatterns normalized_value core).findSome? (fun m =>
        mSearch m line_clean) with
    | none => []
    | some vspan =>
      let line_lower := pyLower line_clean
      match bestAnchor anchors line_lower with
      | some (anchor, _) =>
        let anchor_start := (findSub (pyLower anchor) line_lower).getD 0
        let value_end := vspan.2
        let remaining_text := sliceFrom line_clean value_end
        let extended_end :=
          match mSearch mChangeExt remaining_text with
          | some cspan => value_end + cspan.2
          | none =>
            match mSearch mBracketExt remaining_text with
            | some bspan => value_end + bspan.2
            | none => value_end
        let phrase := dropTrailingCommaSemi (pyStrip (slice line_clean anchor_start extended_end))
        if !phrase.isEmpty && phrase.length > 10 then [(phrase, 1)] else []
      | none =>
        -- windowed connector fallback
        let value_start := vspan.1
        let window_start := value_start - 30
        let prefix_text := slice line_clean window_start value_start
        match (metricConnectors.findSome? (fun conn =>
            (connectorSearch conn prefix_text).map (fun p => window_start + p))) with
        | some best_connector_pos =>
          let value_end := vspan.2
          let remaining_text := sliceFrom line_clean value_end
          let extended_end :=
            match mSearch mBracketExt remaining_text with
            | some bspan => value_end + bspan.2
            | none => value_end
          let phrase := dropTrailingCommaSemi
            (pyStrip (slice line_clean best_connector_pos extended_end))
          if !phrase.isEmpty && phrase.length > 5 then [(phrase, 8/10)] else []
        | none => []

/-- `extract_metric_phrase` from the source. -/
def extract_metric_phrase (text value : Str) (anchors : List Str) : List (Str × ℚ) :=
  let normalized_value := pyStrip value
  let core := firstNumRun normalized_value
  if core.isEmpty then [] else
  let lines := splitOnChar '\n' text
  let phrases := lines.flatMap (fun line =>
    if (pyStrip line).isEmpty then []
    else metricPhraseLine anchors core normalized_value (pyStrip line))
  (dedupByLower (sortByConfLenDesc phrases) []).take 2

/-- Number of matches of
`[\d,\.]+(mn|bn|m|b|%|million|billion|cents|dollars?|aud|usd|gbp|eur)?` —
i.e. the number of maximal `[\d,.]` runs (the optional unit group never
absorbs a following run). -/
def countNumRuns : Nat → Str → Nat
  | 0, _ => 0
  | _ + 1, [] => 0
  | fuel + 1, c :: rest =>
    if isNumClassChar c then
      let run := (c :: rest).takeWhile isNumClassChar
      1 + countNumRuns fuel ((c :: rest).drop run.length)
    else countNumRuns fuel rest

/-- The complete-comparative pattern of `extract_numeric_pair_context`:
`[^.!?]*(?:aud|usd|\$)?\s*CORE[^.!?]*\([^)]*(?:aud|usd|\$)?\s*[\d,\.]+[^)]*\)[^.!?]*`. -/
def patPairComparative (core : Str) : Matcher :=
  mSeqs [mStar (fun c => c ≠ '.' && c ≠ '!' && c ≠ '?'), mCurrencyOpt, mWs, mLitCI core,
         mStar (fun c => c ≠ '.' && c ≠ '!' && c ≠ '?'), mLit ("(").toList,
         mStar (fun c => c ≠ ')'), mCurrencyOpt, mWs, mNumRunPlus,
         mStar (fun c => c ≠ ')'), mLit (")").toList,
         mStar (fun c => c ≠ '.' && c ≠ '!' && c ≠ '?')]

/-- The search patterns of `extract_numeric_pair_context` (exact value; core
with required unit; required currency prefix with core). -/
def pairSearchPatterns (normalized_value core : Str) : List Matcher :=
  [mLitCI normalized_value,
   mSeq (mLitCI core) (mSeq mWs (mAlts
     (["mn", "bn", "m", "b", "%", "million", "billion", "cents"].map
       (fun w => mLitCI w.toList)))),
   mSeqs [mAlts (["aud", "usd", "gbp", "eur"].map (fun w => mLitCI w.toList)),
          mWs, mLitCI core]]

/-- The deduplication/filter loop of `extract_numeric_pair_context`: keep the
first occurrence of each lower-cased key with length in 15–200, boosting the
confidence by 0.1 (capped at 1) when one of the search patterns matches
inside the context. -/
def dedupPairContexts (searchPats : List Matcher) :
    List (Str × ℚ) → List Str → List (Str × ℚ)
  | [], _ => []
  | (c, q) :: rest, seen =>
    let key := pyStrip (pyLower c)
    if !seen.contains key && 15 ≤ c.length && c.length ≤ 200 then
      let q2 := if searchPats.any (fun m => (mSearch m c).isSome) then
        min 1 (q + 1/10) else q
      (c, q2) :: dedupPairContexts searchPats rest (key :: seen)
    else dedupPairContexts searchPats rest seen

/-- `extract_numeric_pair_context` from the source. -/
def extract_numeric_pair_context (value full_text : Str) : List (Str × ℚ) :=
  let normalized_value := pyStrip value
  let core := firstNumRun normalized_value
  if core.isEmpty then [] else
  let lines := splitOnChar '\n' full_text
  let contexts := lines.flatMap (fun line =>
    let line_clean := pyStrip line
    if line_clean.isEmpty then [] else
    match mSearch (patPairComparative core) line_clean with
    | some span =>
      let t := pyStrip (slice line_clean span.1 span.2)
      let t := dropLeadingNumbering (dropLeadingBulletNarrow t)
      if !t.isEmpty && t.length > 15 then [(t, (1 : ℚ))] else
      -- a matched-but-short comparative still skips the pair branch only
      -- when appended; otherwise processing continues below
      (if (pairSearchPatterns normalized_value core).any (fun m =>
            (mSearch m line_clean).isSome) then
        if countNumRuns (line_clean.length + 1) (pyLower line_clean) ≥ 2 then
          [(dropLeadingNumbering (dropLeadingBulletNarrow line_clean), (9/10 : ℚ))]
        else []
      else [])
    | none =>
      if (pairSearchPatterns normalized_value core).any (fun m =>
          (mSearch m line_clean).isSome) then
        if countNumRuns (line_clean.length + 1) (pyLower line_clean) ≥ 2 then
          [(dropLeadingNumbering (dropLeadingBulletNarrow line_clean), (9/10 : ℚ))]
        else []
      else [])
  let deduped := dedupPairContexts (pairSearchPatterns normalized_value core)
    (sortByConfLenDesc contexts) []
  deduped.take 2

/-- `find_minimal_relevant_clause` from the source. -/
def find_minimal_relevant_clause (clauses : List Str) (field value : Str) : Str × ℚ :=
  if clauses.isEmpty || value.isEmpty then ([], 0) else
  let normalized_field := normalize_field_name field
  let value_clean := pyLower (pyStrip value)
  let core_num := firstNumRun value_clean
  let patterns := if core_num.isEmpty then [] else fmcPatterns core_num
  let field_words := pySplitWs normalized_field
  let clause_scores := (clauses.enum).filterMap (fun p =>
    clauseScore clauses p.1 p.2 field_words normalized_field value_clean core_num patterns)
  if clause_scores.isEmpty then ([], 0) else
  let sorted := sortDescBy Prod.snd clause_scores
  match sorted with
  | [] => ([], 0)
  | (best_clause, best_score) :: _ =>
    let best2 := expand_clause_for_completeness best_clause field value clauses
    (pyStrip best2, min 1 best_score)

/-! ## `generate_context_for_field` -/

/-- The artifact check `'+' in s or '?' in s` used at the quality gates. -/
def hasArtifact (s : Str) : Bool := s.contains '+' || s.contains '?'

/-- Round to the nearest integer, halves up: `⌊q + 1/2⌋`, computed by floor
division so that it evaluates inside the kernel. -/
def ratRoundHalf (q : ℚ) : ℤ := Int.fdiv (2 * q.num + (q.den : ℤ)) (2 * (q.den : ℤ))

/-- Python `round(q, 3)` (see the file header note on rounding). -/
def round3 (q : ℚ) : ℚ := ((ratRoundHalf (q * 1000) : ℤ) : ℚ) / 1000

/-- Shared head-of-list step of the numeric passes: only the best candidate
of an extractor is considered, a `+`/`?` artifact makes the engine fall
through to the next strategy, and the confidence is scaled by `g` and
rounded to three decimals. -/
def headGate (g : ℚ → ℚ) : List (Str × ℚ) → Option (Str × ℚ)
  | (c, q) :: _ => if hasArtifact c then none else some (c, round3 (g q))
  | [] => none

/-- The first numeric pass of `generate_context_for_field`: try the tight
metric-phrase extractor, then the comparative-pair extractor, then the
windowed extractor. -/
def numericFirstPass (value full_text : Str) : Option (Str × ℚ) :=
  match headGate (fun q => q) (extract_metric_phrase full_text value get_financial_metric_anchors) with
  | some r => some r
  | none =>
    match headGate (fun q => q) (extract_numeric_pair_context value full_text) with
    | some r => some r
    | none => headGate (fun q => q) (extract_numeric_context_window value full_text)

/-- The numeric fallback run after the semantic pipeline and recovery fail:
metric phrases at 0.7× confidence, then pair contexts at 0.6×. -/
def numericFallback (value full_text : Str) : Option (Str × ℚ) :=
  match headGate (fun q => q * (7/10)) (extract_metric_phrase full_text value get_financial_metric_anchors) with
  | some r => some r
  | none => headGate (fun q => q * (6/10)) (extract_numeric_pair_context value full_text)

/-- The `problematic_fields` test of `generate_context_for_field`. -/
def is_problematic_field_name (field : Str) : Bool :=
  problematic_fields.any (fun p => containsSub p (pyLower field))

/-- The CEO/statement/comment field test. -/
def isCeoStatementField (normalized_field : Str) : Bool :=
  let nfl := pyLower normalized_field
  containsSub ("ceo").toList nfl || containsSub ("statement").toList nfl ||
  containsSub ("comment").toList nfl

/-- The quote pattern `said:\s*"([^"]+)"` (`group(0)` is returned). -/
def patQuote : Matcher :=
  mSeqs [mLitCI ("said:").toList, mWs, mLit ("\"").toList,
         mPlus (fun c => c ≠ '"'), mLit ("\"").toList]

/-- The numeric-branch join probe of `generate_context_for_field`: present in
the source but without observable effect (when `should_join` is false the
head candidate is re-assigned to itself); embedded for fidelity. -/
def shouldJoinProbe (field value : Str) (cands : List (Str × Nat × ℚ)) : Bool :=
  let combo := pyLower (field ++ [' '] ++ value)
  (List.range (cands.length - 1)).any (fun i =>
    match cands.get? i, cands.get? (i + 1) with
    | some c1, some c2 =>
      fuzz_partial_score combo (pyLower c1.1) > 90 &&
      fuzz_partial_score combo (pyLower c2.1) > 90
    | _, _ => false)

/-- Phase 2 of `generate_context_for_field`: clause-level trimming of the
accepted sentences, with the CEO-quote, numeric and general branches.
Returns `none` when control falls through (no candidates, or a general-field
candidate failing the fuzzy bar). -/
def clausePhase (normalized_field field value : Str) (is_numeric : Bool)
    (relevant : List (Str × Nat × ℚ)) : Option (Str × ℚ) :=
  let clause_candidates := relevant.filterMap (fun t =>
    let clauses := split_into_clauses t.1
    let r := find_minimal_relevant_clause clauses field value
    if !r.1.isEmpty then some (r.1, t.2.1, (t.2.2 + r.2) / 2) else none)
  if clause_candidates.isEmpty then none else
  let sorted := sortDescBy (fun (x : Str × Nat × ℚ) => x.2.2) clause_candidates
  if isCeoStatementField normalized_field then
    match relevant.findSome? (fun t =>
        (mSearch patQuote t.1).map (fun span => (slice t.1 span.1 span.2, t.2.2))) with
    | some (full_quote, conf) => some (full_quote, round3 conf)
    | none =>
      let quote_clauses := sorted.filter (fun t =>
        (["said:", "commented:", "stated:"].map String.toList).any
          (fun ind => containsSub ind (pyLower t.1)))
      match quote_clauses with
      | (best_quote, _, quote_conf) :: _ => some (best_quote, round3 quote_conf)
      | [] => some ([], 0)
  else if is_numeric then
    match sorted with
    | [] => none
    | (best_clause, _, best_conf) :: _ =>
      let tysers :=
        if containsSub ("tysers").toList (pyLower normalized_field) &&
           containsSub ("months").toList (pyLower value) then
          relevant.findSome? (fun t =>
            let sl := pyLower t.1
            if containsSub ("tysers").toList sl && containsSub ("months").toList sl &&
               containsSub ("profit").toList sl &&
               (containsSub ("3 months").toList sl ||
                containsSub ("three months").toList sl) then
              some (t.1, round3 t.2.2)
            else none)
        else none
      match tysers with
      | some r => some r
      | none =>
        let _ := if sorted.length > 1 then shouldJoinProbe field value sorted else false
        if hasArtifact best_clause then some ([], 0)
        else some (best_clause, round3 best_conf)
  else
    match sorted with
    | [] => none
    | (best_clause, _, best_conf) :: _ =>
      let field_value_combo := pyLower (field ++ [' '] ++ value)
      if fuzz_partial_score field_value_combo (pyLower best_clause) > 75 then
        if hasArtifact best_clause then some ([], 0)
        else some (best_clause, round3 best_conf)
      else none

/-- Phase 3, the strict recovery pass: exact (case-insensitive) value match
only, clauses trimmed as usual, clause confidence above 0.3, best first
(preferring higher confidence with Python's stable descending sort). -/
def recoveryPhase (field value : Str) (sents : List (Str × Nat)) : Option (Str × ℚ) :=
  let value_clean := pyLower (pyStrip value)
  let recovery_candidates := sents.filterMap (fun p =>
    if containsSub value_clean (pyLower p.1) then
      let clauses := split_into_clauses p.1
      let r := find_minimal_relevant_clause clauses field value
      if !r.1.isEmpty && r.2 > 3/10 then some (r.1, r.2) else none
    else none)
  match sortDescBy Prod.snd recovery_candidates with
  | (best_recovery, recovery_confidence) :: _ => some (best_recovery, round3 recovery_confidence)
  | [] => none

/-- `generate_context_for_field` from the source.  `_similarity_threshold`
is accepted (as in the source signature) but never read by the body — the
general-branch fuzzy bar is the literal `75`.  The semantic-similarity model
is absent in the modelled configuration (see the file header), making the
whole computation a pure function of its arguments. -/
def generate_context_for_field (field value full_text : Str)
    (_similarity_threshold : ℚ) (semantic_threshold : ℚ) (enable_recovery : Bool) :
    Str × ℚ :=
  if full_text.isEmpty || value.isEmpty then ([], 0) else
  let is_numeric := is_numeric_value value
  let is_problematic := is_problematic_field_name field
  let firstPass :=
    if is_numeric && !is_problematic then numericFirstPass value full_text else none
  match firstPass with
  | some r => r
  | none =>
    let sents := extract_sentences_from_text full_text
    if sents.isEmpty then ([], 0) else
    let normalized_field := normalize_field_name field
    let relevant := sents.filterMap (fun p =>
      let r := is_relevant_sentence normalized_field p.1 value
        get_enhanced_semantic_groups get_enhanced_anti_patterns semantic_threshold is_numeric
      if r.1 then some (p.1, p.2, r.2) else none)
    let p2 :=
      if !relevant.isEmpty then
        clausePhase normalized_field field value is_numeric relevant
      else none
    match p2 with
    | some r => r
    | none =>
      let recov :=
        if relevant.isEmpty && enable_recovery then recoveryPhase field value sents
        else none
      match recov with
      | some r => r
      | none =>
        let fb :=
          if is_numeric && enable_recovery && !is_problematic then
            numericFallback value full_text
          else none
        match fb with
        | some r => r
        | none => ([], 0)

/-- `generate_context_for_field` at its default arguments
(`similarity_threshold = 75`, `semantic_threshold = 0.55`,
`enable_recovery = True`), which is how `integrate_context_tracking` calls
it. -/
def generateDefault (field value full_text : Str) : Str × ℚ :=
  generate_context_for_field field value full_text 75 (55/100) true

/-- The engine together with the module-level embedding caches
(`_embedding_cache`, `_sentence_cache`).  In the modelled configuration the
semantic model is `None` (see the file header), so the source guards at its
cache sites (`model is not None and SEMANTIC_AVAILABLE`) never fire: the
caches are neither read nor written, and are returned unchanged. -/
def generate_with_caches (embedding_cache sentence_cache : List (Str × Str))
    (field value full_text : Str) (similarity_threshold semantic_threshold : ℚ)
    (enable_recovery : Bool) :
    (Str × ℚ) × (List (Str × Str) × List (Str × Str)) :=
  (generate_context_for_field field value full_text similarity_threshold
     semantic_threshold enable_recovery,
   (embedding_cache, sentence_cache))

/-! ## `handle_truncation_and_chopping` -/

/-- Python `s.rfind(c)` (as an integer, `-1` when absent). -/
def pyRfindChar (c : Char) (s : Str) : Int :=
  match ((s.enum.filter (fun p => p.2 = c)).map Prod.fst).max? with
  | some i => (i : Int)
  | none => -1

/-- The `clause_endings` list of `handle_truncation_and_chopping`. -/
def clauseEndings : List Char := ['.', '!', '?', ';']

/-- The `last_ending` loop of `handle_truncation_and_chopping`: the rightmost
occurrence of any clause-ending character (`-1` when there is none). -/
def lastClauseEnd (truncated : Str) : Int :=
  clauseEndings.foldl (fun acc c =>
    let pos := pyRfindChar c truncated
    if pos > acc then pos else acc) (-1)

/-- `handle_truncation_and_chopping` from the source (`max_length` is 2000 at
the call site). -/
def handle_truncation_and_chopping (context : Str) (max_length : Nat) : Str :=
  if context.isEmpty || context.length ≤ max_length then context else
  let truncated := context.take max_length
  let last_ending := lastClauseEnd truncated
  if (last_ending : ℚ) > (max_length : ℚ) * (7/10) then
    pyStrip (truncated.take (last_ending + 1).toNat)
  else
    let last_space := pyRfindChar ' ' truncated
    if (last_space : ℚ) > (max_length : ℚ) * (8/10) then
      pyStrip (truncated.take last_space.toNat) ++ ("...").toList
    else
      pyStrip truncated ++ ("...").toList

/-! ## `integrate_context_tracking` -/

/-- One table of `processed_result['processed_tables']`: its page tag, its
`structured_table` field/value pairs, and whether it carries an `error`
key (the source skips tables whose `structured_table` is empty/absent or
flagged). -/
structure TableInput where
  page : Str
  structured_table : List (Str × Str)
  hasError : Bool

/-- `processed_result['processed_key_values']`. -/
structure KVInput where
  structured_key_values : List (Str × Str)
  hasError : Bool

/-- One chunk of `processed_result['processed_document_text']`. -/
structure ChunkInput where
  extracted_facts : List (Str × Str)
  hasError : Bool

/-- One row of `enhanced_data_with_context`. -/
structure ContextRecord where
  source : Str
  type : Str
  field : Str
  value : Str
  page : Str
  context : Str
  context_confidence : ℚ
  has_context : Bool
deriving DecidableEq

/-- The running state of one `integrate_context_tracking` pass: the emitted
records, the per-pass deduplication cache, and the coverage counters. -/
structure IState where
  records : List ContextRecord
  cache : List (Str × (Str × ℚ))
  total_fields : Nat
  fields_with_context : Nat
  total_context_length : Nat
deriving DecidableEq

/-- The cache key `f"{field_name}:{field_value}".lower()`. -/
def cacheKey (field value : Str) : Str :=
  pyLower (field ++ [':'] ++ value)

/-- The final quality gate of `integrate_context_tracking`: clear the context
(and zero the confidence) if it still contains an artifact, if it is longer
than 500 characters with confidence below 0.6, or if the confidence is below
0.6. -/
def qualityGate (context : Str) (confidence : ℚ) : Str × ℚ :=
  if !context.isEmpty then
    if hasArtifact context then ([], 0)
    else if context.length > 500 && confidence < 6/10 then ([], 0)
    else if confidence < 6/10 then ([], 0)
    else (context, confidence)
  else (context, confidence)

/-- The freshly-computed (pre-cache, pre-gate) pair for a fact in the tables
loop: generate, apply the CEO/commentary routing, and truncate. -/
def computeTablePair (full_text field value : Str) : Str × ℚ :=
  let r := generateDefault field value full_text
  let r :=
    if r.1.isEmpty && (containsSub ("ceo").toList (pyLower field) ||
        containsSub ("statement").toList (pyLower field) ||
        containsSub ("comment").toList (pyLower field)) then
      (([] : Str), (0 : ℚ))
    else r
  if !r.1.isEmpty then (handle_truncation_and_chopping r.1 2000, r.2) else r

/-- The freshly-computed pair for the key-value and text-chunk loops (no
routing, no truncation). -/
def computeKVPair (full_text field value : Str) : Str × ℚ :=
  generateDefault field value full_text

/-- The pre-gate pair used for a fact: the cached pair on a hit, otherwise
the fresh computation (which is stored when non-empty with confidence above
0.5). -/
def preGatePair (compute : Str → Str → Str × ℚ) (cache : List (Str × (Str × ℚ)))
    (field value : Str) : (Str × ℚ) × List (Str × (Str × ℚ)) :=
  let key := cacheKey field value
  match cache.find? (fun p => p.1 = key) with
  | some p => (p.2, cache)
  | none =>
    let r := compute field value
    if !r.1.isEmpty && r.2 > 1/2 then (r, cache ++ [(key, r)]) else (r, cache)

/-- Processing of one fact: cache lookup / fresh computation, quality gate,
statistics and record emission. -/
def stepFact (compute : Str → Str → Str × ℚ)
    (mkRecord : Str → Str → Str → ℚ → Bool → ContextRecord)
    (st : IState) (fv : Str × Str) : IState :=
  let field := fv.1
  let value := fv.2
  if field = ("error").toList || value.isEmpty then st else
  let st1 : IState := { st with total_fields := st.total_fields + 1 }
  let pc := preGatePair compute st1.cache field value
  let gated := qualityGate pc.1.1 pc.1.2
  let context := gated.1
  let confidence := gated.2
  let st2 : IState := { st1 with cache := pc.2 }
  let st3 : IState :=
    if !context.isEmpty then
      { st2 with fields_with_context := st2.fields_with_context + 1,
                 total_context_length := st2.total_context_length + context.length }
    else st2
  { st3 with records :=
      st3.records ++ [mkRecord field value context confidence (!context.isEmpty)] }

/-- The chunk-loop field display transformation. -/
def fieldDisplay (field : Str) : Str :=
  let t1 := pyReplace (field.length + 1) ("_Footnote").toList (" (Footnote)").toList field
  pyReplace (t1.length + 1) ("Footnote_").toList ("Footnote: ").toList t1

/-- The coverage summary (`context_tracking_summary`). -/
structure ContextSummary where
  total_fields : Nat
  fields_with_context : Nat
  context_coverage_percentage : ℚ
  average_context_length : ℚ
  total_context_characters : Nat
  document_text_lines : Nat
  document_text_characters : Nat
deriving DecidableEq

/-- Python `round(q, 1)`. -/
def round1 (q : ℚ) : ℚ := ((ratRoundHalf (q * 10) : ℤ) : ℚ) / 10

/-- The result of one `integrate_context_tracking` pass.  (The source keeps
the cache in a local variable; it is exposed here so that the cache-scoping
claims can be stated.)  `aborted` marks the degenerate early return taken
when `document_text` is empty. -/
structure IntegrateResult where
  records : List ContextRecord
  summary : ContextSummary
  cache : List (Str × (Str × ℚ))
  aborted : Bool
deriving DecidableEq

/-- One fact of the tables loop. -/
def tableFactStep (full_text : Str) (table_idx : Nat) (page : Str)
    (st : IState) (fv : Str × Str) : IState :=
  stepFact (computeTablePair full_text)
    (fun field value context confidence hasCtx =>
      ⟨("Table ").toList ++ natDigits (table_idx + 1), ("Table Data").toList,
       field, value, page, context, confidence, hasCtx⟩)
    st fv

/-- One table of the tables loop (skipped when empty or flagged). -/
def tableStep (full_text : Str) (st : IState) (tp : Nat × TableInput) : IState :=
  if tp.2.structured_table.isEmpty || tp.2.hasError then st else
  tp.2.structured_table.foldl (tableFactStep full_text tp.1 tp.2.page) st

/-- One fact of the key-value loop. -/
def kvFactStep (full_text : Str) (st : IState) (fv : Str × Str) : IState :=
  stepFact (computeKVPair full_text)
    (fun field value context confidence hasCtx =>
      ⟨("Key-Value Pairs").toList, ("Structured Data").toList,
       field, value, ("N/A").toList, context, confidence, hasCtx⟩)
    st fv

/-- One fact of the text-chunk loop. -/
def chunkFactStep (full_text : Str) (chunk_idx : Nat)
    (st : IState) (fv : Str × Str) : IState :=
  stepFact (computeKVPair full_text)
    (fun field value context confidence hasCtx =>
      let data_type :=
        if containsSub ("footnote").toList (pyLower field) then ("Footnote").toList
        else ("Financial Data").toList
      ⟨("Text Chunk ").toList ++ natDigits (chunk_idx + 1), data_type,
       fieldDisplay field, value, ("N/A").toList, context, confidence, hasCtx⟩)
    st fv

/-- One chunk of the text-chunk loop (skipped when flagged). -/
def chunkStep (full_text : Str) (st : IState) (cp : Nat × ChunkInput) : IState :=
  if cp.2.hasError then st else
  cp.2.extracted_facts.foldl (chunkFactStep full_text cp.1) st

/-- The body of `integrate_context_tracking` parameterised by the initial
cache state (the source always starts from a fresh empty dict — see
`integrate_context_tracking` below and claim C10). -/
def integrate_core (cache0 : List (Str × (Str × ℚ)))
    (document_text_lines : List Str) (tables : List TableInput)
    (key_values : KVInput) (chunks : List ChunkInput) : IntegrateResult :=
  let full_text := joinSpace document_text_lines
  let st0 : IState := ⟨[], cache0, 0, 0, 0⟩
  -- tables loop
  let stT := (tables.enum).foldl (tableStep full_text) st0
  -- key-value loop
  let stK :=
    if key_values.structured_key_values.isEmpty || key_values.hasError then stT else
    key_values.structured_key_values.foldl (kvFactStep full_text) stT
  -- text-chunk loop
  let stC := (chunks.enum).foldl (chunkStep full_text) stK
  let summary : ContextSummary :=
    ⟨stC.total_fields, stC.fields_with_context,
     round1 ((stC.fields_with_context : ℚ) / (max stC.total_fields 1 : ℚ) * 100),
     (if stC.fields_with_context > 0 then
        round1 ((stC.total_context_length : ℚ) / (max stC.fields_with_context 1 : ℚ))
      else 0),
     stC.total_context_length, document_text_lines.length, full_text.length⟩
  ⟨stC.records, summary, stC.cache, false⟩

/-- `integrate_context_tracking` from the source: abort on an empty document,
otherwise run the three processing loops starting from a fresh empty
deduplication cache. -/
def integrate_context_tracking (document_text_lines : List Str)
    (tables : List TableInput) (key_values : KVInput) (chunks : List ChunkInput) :
    IntegrateResult :=
  if document_text_lines.isEmpty then
    ⟨[], ⟨0, 0, 0, 0, 0, 0, 0⟩, [], true⟩
  else
    integrate_core [] document_text_lines tables key_values chunks

/-! ## Concrete documents used by the claim theorems -/

/-- The comparative-atomicity line of the spec (claim C2). -/
def c2doc : Str :=
  ("Underlying NPAT of AUD 46.7mn (1HFY22: AUD 30.6mn), up 52.6%").toList

/-- The span the engine returns for C2. -/
def c2phrase : Str :=
  ("Underlying NPAT of AUD 46.7mn (1HFY22: AUD 30.6mn)").toList

/-- A document on which the clause-trimming path returns confidence 1.1
(claim C3): the raw `?` artifact defeats the numeric extractors, and the
cleaned sentence matches the value, all four field words, and a related
domain. -/
def c3doc : Str := ("revenue? earnings profit margin 46.7mn cash").toList

/-- A document whose segment cleaning inserts a space (`markedBeta` →
`marked Beta`), so the recovered span is not a substring of the
`clean_ocr_artifacts`-cleaned document (claim C1). -/
def c1doc : Str := ("The student grade was markedBeta as zz9 now.").toList

/-- A document whose only sentence contains the value `b+`; the strict
recovery path returns it with the `+` artifact intact (claim C4). -/
def c4doc : Str := ("student grade marked as b+ overall today fine.").toList

/-- The anti-pattern document of the spec (claim C5). -/
def c5doc : Str := ("Blood money transactions are strictly prohibited.").toList

/-! # Theorems

Infrastructure lemmas first, then one theorem per claim (with witnesses and
counterexamples as required). -/

/-! ## Substring infrastructure -/

theorem containsSub_iff {a b : Str} : containsSub a b = true ↔ a <:+: b := by
  unfold containsSub
  rw [List.any_eq_true]
  constructor
  · rintro ⟨i, _, hp⟩
    exact ((List.isPrefixOf_iff_prefix.1 hp).isInfix).trans (List.drop_suffix i b).isInfix
  · rintro ⟨s, t, rfl⟩
    refine ⟨s.length, List.mem_range.2 ?_, ?_⟩
    · simp only [List.length_append]
      omega
    · have hdrop : List.drop s.length (s ++ a ++ t) = a ++ t := by
        rw [List.append_assoc, List.drop_left]
      rw [hdrop]
      exact List.isPrefixOf_iff_prefix.2 (List.prefix_append a t)

theorem pyStrip_sub (s : Str) : pyStrip s <:+: s := by
  unfold pyStrip
  have h1 : s.dropWhile isWsChar <:+ s := List.dropWhile_suffix _
  have h2 : ((s.dropWhile isWsChar).reverse.dropWhile isWsChar).reverse <+:
      (s.dropWhile isWsChar) := by
    rw [← List.reverse_suffix]
    simp only [List.reverse_reverse]
    exact List.dropWhile_suffix _
  exact h2.isInfix.trans h1.isInfix

theorem slice_sub (s : Str) (a b : Nat) : slice s a b <:+: s :=
  ((List.drop_suffix a (s.take b)).isInfix).trans (List.take_prefix b s).isInfix

theorem pyLower_sub {a b : Str} (h : a <:+: b) : pyLower a <:+: pyLower b :=
  h.map lowerChar

theorem dropTrailingCommaSemi_sub (s : Str) : dropTrailingCommaSemi s <:+: s := by
  unfold dropTrailingCommaSemi
  cases hd : s.reverse.drop ((s.reverse.takeWhile isWsChar).length) with
  | nil => exact List.infix_refl s
  | cons c rest =>
    have hsuf : rest <:+ s.reverse :=
      (List.suffix_cons c rest).trans (hd ▸ List.drop_suffix _ _)
    have h4 : rest.reverse <+: s := by
      simpa using List.reverse_prefix.2 hsuf
    dsimp only
    split
    · exact h4.isInfix
    · exact List.infix_refl _

theorem dropLeadingBulletNarrow_sub (s : Str) : dropLeadingBulletNarrow s <:+: s := by
  unfold dropLeadingBulletNarrow
  cases s with
  | nil => exact List.infix_refl _
  | cons c rest =>
    by_cases h : c = '•' || c = '-' || c = '*' || c = '+'
    · simp only [h, if_pos]
      exact ((List.dropWhile_suffix _).trans (List.suffix_cons c rest)).isInfix
    · simp only [h]
      exact List.infix_refl _

theorem dropLeadingNumbering_sub (s : Str) : dropLeadingNumbering s <:+: s := by
  unfold dropLeadingNumbering
  by_cases h : (s.takeWhile isDigitChar).isEmpty
  · simp [h]
  · simp only [h, Bool.false_eq_true, if_false]
    cases hd : s.drop (s.takeWhile isDigitChar).length with
    | nil => exact List.infix_refl _
    | cons c rest =>
      by_cases hc : c = '.' || c = ')'
      · simp only [hc, if_pos]
        have h1 : rest.dropWhile isWsChar <:+ rest := List.dropWhile_suffix _
        have h2 : rest <:+ s := by
          have h0 : c :: rest <:+ s := hd ▸ List.drop_suffix _ s
          exact (List.suffix_cons c rest).trans h0
        exact (h1.trans h2).isInfix
      · simp only [hc]
        exact List.infix_refl _

theorem splitOnChar_ne_nil (c : Char) (s : Str) : splitOnChar c s ≠ [] := by
  induction s with
  | nil => simp [splitOnChar]
  | cons x rest ih =>
    unfold splitOnChar
    by_cases h : x = c
    · simp [h]
    · simp only [h, if_false]
      cases hs : splitOnChar c rest with
      | nil => simp
      | cons p ps => simp

theorem splitOnChar_head_prefix (c : Char) (s : Str) :
    ∀ p, (splitOnChar c s).head? = some p → p <+: s := by
  induction s with
  | nil =>
    intro p hp
    simp [splitOnChar] at hp
    subst hp
    exact List.nil_prefix
  | cons x rest ih =>
    intro p hp
    unfold splitOnChar at hp
    by_cases h : x = c
    · simp [h] at hp
      subst hp
      exact List.nil_prefix
    · simp only [h, if_false] at hp
      cases hs : splitOnChar c rest with
      | nil => exact absurd hs (splitOnChar_ne_nil c rest)
      | cons p0 ps =>
        simp [hs] at hp
        have h0 : p0 <+: rest := ih p0 (by simp [hs])
        rw [← hp]
        exact List.cons_prefix_cons.2 ⟨rfl, h0⟩

theorem mem_splitOnChar_sub (c : Char) (s : Str) :
    ∀ p ∈ splitOnChar c s, p <:+: s := by
  induction s with
  | nil => intro p hp; simp [splitOnChar] at hp; simp [hp]
  | cons x rest ih =>
    intro p hp
    unfold splitOnChar at hp
    by_cases h : x = c
    · simp [h] at hp
      rcases hp with hp | hp
      · simp [hp]
      · exact List.infix_cons (ih p hp)
    · simp only [h, if_false] at hp
      cases hs : splitOnChar c rest with
      | nil => exact absurd hs (splitOnChar_ne_nil c rest)
      | cons p0 ps =>
        simp [hs] at hp
        rcases hp with hp | hp
        · have h0 : p0 <+: rest := splitOnChar_head_prefix c rest p0 (by simp [hs])
          rw [hp]
          exact (List.cons_prefix_cons.2 ⟨rfl, h0⟩).isInfix
        · have hmem : p ∈ splitOnChar c rest := by simp [hs, hp]
          exact List.infix_cons (ih p hmem)

/-! ## Sorting and deduplication membership -/

theorem mem_insDesc {α : Type} (key : α → ℚ) (x : α) (l : List α) :
    ∀ y ∈ insDesc key x l, y = x ∨ y ∈ l := by
  induction l with
  | nil => intro y hy; simp [insDesc] at hy; simp [hy]
  | cons z zs ih =>
    intro y hy
    unfold insDesc at hy
    by_cases h : key x ≤ key z
    · simp only [h, if_true] at hy
      rcases List.mem_cons.1 hy with hy | hy
      · right; simp [hy]
      · rcases ih y hy with hy | hy
        · left; exact hy
        · right; simp [hy]
    · simp only [h, if_false] at hy
      rcases List.mem_cons.1 hy with hy | hy
      · left; exact hy
      · right; exact hy

theorem mem_sortDescBy {α : Type} (key : α → ℚ) (l : List α) :
    ∀ y ∈ sortDescBy key l, y ∈ l := by
  unfold sortDescBy
  suffices h : ∀ (l : List α) (acc : List α) y,
      y ∈ l.foldl (fun a x => insDesc key x a) acc → y ∈ acc ∨ y ∈ l by
    intro y hy
    rcases h l [] y hy with h0 | h0
    · simp at h0
    · exact h0
  intro l
  induction l with
  | nil => intro acc y hy; simp at hy; exact Or.inl hy
  | cons x xs ih =>
    intro acc y hy
    simp only [List.foldl_cons] at hy
    rcases ih (insDesc key x acc) y hy with h0 | h0
    · rcases mem_insDesc key x acc y h0 with h1 | h1
      · right; simp [h1]
      · left; exact h1
    · right; simp [h0]

theorem mem_insConfLen (x : Str × ℚ) (l : List (Str × ℚ)) :
    ∀ y ∈ insConfLen x l, y = x ∨ y ∈ l := by
  induction l with
  | nil => intro y hy; simp [insConfLen] at hy; simp [hy]
  | cons z zs ih =>
    intro y hy
    unfold insConfLen at hy
    by_cases h : x.2 < z.2 || (x.2 = z.2 && z.1.length ≤ x.1.length)
    · simp only [h, if_true] at hy
      rcases List.mem_cons.1 hy with hy | hy
      · right; simp [hy]
      · rcases ih y hy with hy | hy
        · left; exact hy
        · right; simp [hy]
    · simp only [h, if_false] at hy
      rcases List.mem_cons.1 hy with hy | hy
      · left; exact hy
      · right; exact hy

theorem mem_sortByConfLenDesc (l : List (Str × ℚ)) :
    ∀ y ∈ sortByConfLenDesc l, y ∈ l := by
  unfold sortByConfLenDesc
  suffices h : ∀ (l acc : List (Str × ℚ)) y,
      y ∈ l.foldl (fun a x => insConfLen x a) acc → y ∈ acc ∨ y ∈ l by
    intro y hy
    rcases h l [] y hy with h0 | h0
    · simp at h0
    · exact h0
  intro l
  induction l with
  | nil => intro acc y hy; simp at hy; exact Or.inl hy
  | cons x xs ih =>
    intro acc y hy
    simp only [List.foldl_cons] at hy
    rcases ih (insConfLen x acc) y hy with h0 | h0
    · rcases mem_insConfLen x acc y h0 with h1 | h1
      · right; simp [h1]
      · left; exact h1
    · right; simp [h0]

theorem mem_dedupByLower (l : List (Str × ℚ)) :
    ∀ seen y, y ∈ dedupByLower l seen → y ∈ l := by
  induction l with
  | nil => intro seen y hy; simp [dedupByLower] at hy
  | cons x xs ih =>
    intro seen y hy
    unfold dedupByLower at hy
    by_cases h : seen.contains (pyStrip (pyLower x.1))
    · simp only [h, if_true] at hy
      exact List.mem_cons_of_mem _ (ih _ y hy)
    · simp only [h, if_false] at hy
      rcases List.mem_cons.1 hy with hy | hy
      · simp [hy]
      · exact List.mem_cons_of_mem _ (ih _ y hy)

theorem mem_dedupPairContexts (pats : List Matcher) (l : List (Str × ℚ)) :
    ∀ seen c q, (c, q) ∈ dedupPairContexts pats l seen →
      ∃ q0, (c, q0) ∈ l ∧ (q = q0 ∨ q = min 1 (q0 + 1/10)) := by
  induction l with
  | nil => intro seen c q hy; simp [dedupPairContexts] at hy
  | cons x xs ih =>
    intro seen c q hy
    unfold dedupPairContexts at hy
    by_cases h : !seen.contains (pyStrip (pyLower x.1)) && 15 ≤ x.1.length &&
        x.1.length ≤ 200
    · simp only [h, if_true] at hy
      rcases List.mem_cons.1 hy with hy | hy
      · rw [Prod.mk.injEq] at hy
        obtain ⟨hc, hq⟩ := hy
        refine ⟨x.2, ?_, ?_⟩
        · subst hc
          rw [Prod.mk.eta]
          exact List.mem_cons_self x xs
        · by_cases hb : pats.any (fun m => (mSearch m x.1).isSome)
          · right; rw [hq, hb]; simp
          · left; rw [hq]; simp [hb]
      · obtain ⟨q0, hq0, hq⟩ := ih _ c q hy
        exact ⟨q0, List.mem_cons_of_mem _ hq0, hq⟩
    · simp only [h, if_false] at hy
      obtain ⟨q0, hq0, hq⟩ := ih _ c q hy
      exact ⟨q0, List.mem_cons_of_mem _ hq0, hq⟩

/-! ## The numeric extractors return verbatim slices of the document -/

theorem metricPhraseLine_sub (anchors : List Str) (core nv line : Str) :
    ∀ p ∈ metricPhraseLine anchors core nv line, p.1 <:+: line := by
  intro p hp
  unfold metricPhraseLine at hp
  rcases henh : (empPatterns core).findSome? (fun m =>
      match mSearch m line with
      | some span =>
        let phrase := pyStrip (slice line span.1 span.2)
        if !phrase.isEmpty && phrase.length > 10 then some phrase else none
      | none => none) with _ | phrase
  · rw [henh] at hp
    simp only at hp
    rcases hval : (metricSearchPatterns nv core).findSome? (fun m => mSearch m line) with
      _ | vspan
    · rw [hval] at hp
      simp at hp
    · rw [hval] at hp
      simp only at hp
      rcases hanch : bestAnchor anchors (pyLower line) with _ | ap
      · rw [hanch] at hp
        simp only at hp
        rcases hconn : metricConnectors.findSome? (fun conn =>
            (connectorSearch conn (slice line (vspan.1 - 30) vspan.1)).map
              (fun pos => vspan.1 - 30 + pos)) with _ | bcp
        · rw [hconn] at hp
          simp at hp
        · rw [hconn] at hp
          simp only at hp
          split at hp
          · simp at hp
            rw [hp]
            exact (dropTrailingCommaSemi_sub _).trans
              ((pyStrip_sub _).trans (slice_sub _ _ _))
          · simp at hp
      · rw [hanch] at hp
        simp only at hp
        split at hp
        · simp at hp
          rw [hp]
          exact (dropTrailingCommaSemi_sub _).trans
            ((pyStrip_sub _).trans (slice_sub _ _ _))
        · simp at hp
  · rw [henh] at hp
    simp at hp
    obtain ⟨m, _, hm⟩ := List.exists_of_findSome?_eq_some henh
    rcases hms : mSearch m line with _ | span
    · rw [hms] at hm; simp at hm
    · rw [hms] at hm
      simp only at hm
      split at hm
      · have hphr : phrase = pyStrip (slice line span.1 span.2) := by
          have hm2 := hm
          simp only [Option.some.injEq] at hm2
          exact hm2.symm
        rw [hp, hphr]
        exact (pyStrip_sub _).trans (slice_sub _ _ _)
      · simp at hm

theorem extract_metric_phrase_sub (text value : Str) (anchors : List Str) :
    ∀ p ∈ extract_metric_phrase text value anchors, p.1 <:+: text := by
  intro p hp
  unfold extract_metric_phrase at hp
  dsimp only at hp
  split at hp
  · simp at hp
  · have h1 : p ∈ dedupByLower (sortByConfLenDesc _) [] := (List.take_subset _ _) hp
    have h2 := mem_dedupByLower _ _ p h1
    have h3 := mem_sortByConfLenDesc _ p h2
    rw [List.mem_flatMap] at h3
    obtain ⟨line, hline, hpline⟩ := h3
    split at hpline
    · simp at hpline
    · exact ((metricPhraseLine_sub _ _ _ _ p hpline).trans (pyStrip_sub line)).trans
        (mem_splitOnChar_sub '\n' text line hline)

theorem extract_numeric_pair_context_sub (value full_text : Str) :
    ∀ p ∈ extract_numeric_pair_context value full_text, p.1 <:+: full_text := by
  intro p hp
  unfold extract_numeric_pair_context at hp
  dsimp only at hp
  split at hp
  · simp at hp
  · have h1 := (List.take_subset _ _) hp
    obtain ⟨q0, hq0, _⟩ := mem_dedupPairContexts _ _ _ p.1 p.2
      (by rw [Prod.mk.eta]; exact h1)
    have h3 := mem_sortByConfLenDesc _ _ hq0
    rw [List.mem_flatMap] at h3
    obtain ⟨line, hline, hpline⟩ := h3
    have hlineInfix : pyStrip line <:+: full_text :=
      (pyStrip_sub line).trans (mem_splitOnChar_sub '\n' full_text line hline)
    have hclean : ∀ (t : Str), t <:+: full_text →
        dropLeadingNumbering (dropLeadingBulletNarrow t) <:+: full_text := fun t ht =>
      ((dropLeadingNumbering_sub _).trans (dropLeadingBulletNarrow_sub t)).trans ht
    split at hpline
    · simp at hpline
    · split at hpline
      · split at hpline
        · simp at hpline
          rw [hpline.1]
          exact hclean _ ((pyStrip_sub _).trans ((slice_sub _ _ _).trans hlineInfix))
        · split at hpline
          · split at hpline
            · simp at hpline
              rw [hpline.1]
              exact hclean _ hlineInfix
            · simp at hpline
          · simp at hpline
      · split at hpline
        · split at hpline
          · simp at hpline
            rw [hpline.1]
            exact hclean _ hlineInfix
          · simp at hpline
        · simp at hpline

theorem extract_numeric_context_window_sub (value full_text : Str) :
    ∀ p ∈ extract_numeric_context_window value full_text, p.1 <:+: full_text := by
  intro p hp
  unfold extract_numeric_context_window at hp
  dsimp only at hp
  split at hp
  · simp at hp
  · have h1 := (List.take_subset _ _) hp
    have h2 := mem_dedupByLower _ _ p h1
    have h3 := mem_sortDescBy _ _ p h2
    rw [List.mem_flatMap] at h3
    obtain ⟨pc, _, hpc⟩ := h3
    rw [List.mem_filterMap] at hpc
    obtain ⟨span, _, hspan⟩ := hpc
    split at hspan
    · simp at hspan
      rw [← hspan]
      exact (pyStrip_sub _).trans (slice_sub _ _ _)
    · simp at hspan

/-! ## Confidence bounds -/

theorem fuzz_partial_score_nonneg (a b : Str) : 0 ≤ fuzz_partial_score a b := by
  unfold fuzz_partial_score
  split
  · norm_num
  · split
    · norm_num
    · apply div_nonneg
      · positivity
      · positivity

theorem irsValueScore_nonneg (vc sl : Str) (ta : Bool) : 0 ≤ irsValueScore vc sl ta := by
  unfold irsValueScore
  repeat' split
  all_goals try norm_num
  have h := fuzz_partial_score_nonneg vc sl
  positivity

theorem irsFieldScore_nonneg (fl sl : Str) : 0 ≤ irsFieldScore fl sl := by
  unfold irsFieldScore
  positivity

theorem irsDomainScore_nonneg (fl : Str) (md : List Str) : 0 ≤ irsDomainScore fl md := by
  unfold irsDomainScore
  split <;> norm_num

theorem irsFinalScore_nonneg (vc sl : Str) (ta : Bool) (fl : Str) (md : List Str) :
    0 ≤ irsFinalScore vc sl ta fl md := by
  unfold irsFinalScore
  have h1 := irsValueScore_nonneg vc sl ta
  have h2 := irsFieldScore_nonneg fl sl
  have h3 := irsDomainScore_nonneg fl md
  linarith

theorem is_relevant_sentence_snd_nonneg (f s v : Str) (g a : List (Str × List Str))
    (t : ℚ) (n : Bool) : 0 ≤ (is_relevant_sentence f s v g a t n).2 := by
  unfold is_relevant_sentence
  dsimp only
  repeat' split
  all_goals simp [irsFinalScore_nonneg]

theorem csValuePair_snd_nonneg (vc cn cl : Str) : 0 ≤ (csValuePair vc cn cl).2 := by
  unfold csValuePair
  repeat' split
  all_goals norm_num

theorem csBase_nonneg (pats : List Matcher) (fw : List Str) (nf vc cn cl : Str)
    (eb : ℚ) (heb : 0 ≤ eb) : 0 ≤ csBase pats fw nf vc cn cl eb := by
  unfold csBase csPatScore
  have hv := csValuePair_snd_nonneg vc cn cl
  have hc : (0 : ℚ) ≤ (3 : ℚ)/10 * (csFieldHits fw cl : ℚ) := by positivity
  repeat' split
  all_goals linarith

theorem csPenalized_nonneg (clauses : List Str) (i : Nat) (fw : List Str)
    (vc cn clause : Str) (b : ℚ) (hb : 0 ≤ b) :
    0 ≤ csPenalized clauses i fw vc cn clause b := by
  unfold csPenalized
  repeat' split
  all_goals linarith

theorem csSizeAdjust_nonneg (clause : Str) (q : ℚ) (hq : 0 ≤ q) :
    0 ≤ csSizeAdjust clause q := by
  unfold csSizeAdjust
  repeat' split
  all_goals linarith

theorem clauseScore_snd_nonneg (clauses : List Str) (i : Nat) (clause : Str)
    (fw : List Str) (nf vc cn : Str) (pats : List Matcher) (c : Str) (q : ℚ)
    (h : clauseScore clauses i clause fw nf vc cn pats = some (c, q)) : 0 ≤ q := by
  unfold clauseScore at h
  dsimp only at h
  repeat' split at h
  all_goals try exact Option.noConfusion h
  all_goals simp only [Option.some.injEq, Prod.mk.injEq] at h
  all_goals obtain ⟨-, hq⟩ := h
  all_goals rw [← hq]
  all_goals apply csSizeAdjust_nonneg
  all_goals apply csPenalized_nonneg
  all_goals apply csBase_nonneg
  all_goals norm_num

theorem sorted_clauseScores_snd_nonneg (clauses : List Str) (fw : List Str)
    (nf vc cn : Str) (pats : List Matcher) :
    ∀ x ∈ sortDescBy Prod.snd ((clauses.enum).filterMap fun p =>
      clauseScore clauses p.1 p.2 fw nf vc cn pats), 0 ≤ x.2 := by
  intro x hx
  have h2 := mem_sortDescBy _ _ _ hx
  rw [List.mem_filterMap] at h2
  obtain ⟨p, -, hp⟩ := h2
  exact clauseScore_snd_nonneg _ _ _ _ _ _ _ _ x.1 x.2 (by rw [Prod.mk.eta]; exact hp)

theorem find_minimal_relevant_clause_snd_bounds (clauses : List Str) (field value : Str) :
    0 ≤ (find_minimal_relevant_clause clauses field value).2 ∧
    (find_minimal_relevant_clause clauses field value).2 ≤ 1 := by
  unfold find_minimal_relevant_clause
  dsimp only
  repeat' split
  all_goals try norm_num
  all_goals
    rename_i best_clause best_score tail heq
    have hmem := List.mem_cons_self (best_clause, best_score) tail
    rw [← heq] at hmem
    exact sorted_clauseScores_snd_nonneg _ _ _ _ _ _ _ hmem

theorem ratRoundHalf_nonneg (q : ℚ) (hq : 0 ≤ q) : 0 ≤ ratRoundHalf q := by
  unfold ratRoundHalf
  apply Int.fdiv_nonneg
  · have h1 : 0 ≤ q.num := Rat.num_nonneg.2 hq
    have h2 : (0 : ℤ) < (q.den : ℤ) := by
      exact_mod_cast Nat.pos_of_ne_zero q.den_nz
    linarith
  · have h2 : (0 : ℤ) < (q.den : ℤ) := by
      exact_mod_cast Nat.pos_of_ne_zero q.den_nz
    linarith

theorem round3_nonneg (q : ℚ) (hq : 0 ≤ q) : 0 ≤ round3 q := by
  unfold round3
  apply div_nonneg
  · exact_mod_cast ratRoundHalf_nonneg _ (by linarith)
  · norm_num

theorem extract_numeric_context_window_snd_nonneg (value full_text : Str) :
    ∀ x ∈ extract_numeric_context_window value full_text, 0 ≤ x.2 := by
  intro x hx
  unfold extract_numeric_context_window at hx
  dsimp only at hx
  split at hx
  · exact absurd hx (List.not_mem_nil x)
  · have h1 := List.mem_of_mem_take hx
    have h2 := mem_dedupByLower _ _ _ h1
    have h3 := mem_sortDescBy _ _ _ h2
    rw [List.mem_flatMap] at h3
    obtain ⟨pc, hpc, hx2⟩ := h3
    rw [List.mem_filterMap] at hx2
    obtain ⟨span, -, hspan⟩ := hx2
    try dsimp only at hspan
    split at hspan
    · rw [Option.some.injEq] at hspan
      rw [← hspan]
      simp only [List.mem_cons, List.not_mem_nil, or_false] at hpc
      rcases hpc with h | h | h <;> rw [h] <;> norm_num
    · exact absurd hspan (Option.noConfusion)

theorem metricPhraseLine_snd_nonneg (anchors : List Str) (core nv lc : Str) :
    ∀ x ∈ metricPhraseLine anchors core nv lc, 0 ≤ x.2 := by
  intro x hx
  unfold metricPhraseLine at hx
  dsimp only at hx
  repeat' split at hx
  all_goals first
    | exact absurd hx (List.not_mem_nil x)
    | (rw [List.mem_singleton] at hx; rw [hx]; norm_num)

theorem extract_metric_phrase_snd_nonneg (text value : Str) (anchors : List Str) :
    ∀ x ∈ extract_metric_phrase text value anchors, 0 ≤ x.2 := by
  intro x hx
  unfold extract_metric_phrase at hx
  dsimp only at hx
  split at hx
  · exact absurd hx (List.not_mem_nil x)
  · have h1 := List.mem_of_mem_take hx
    have h2 := mem_dedupByLower _ _ _ h1
    have h3 := mem_sortByConfLenDesc _ _ h2
    rw [List.mem_flatMap] at h3
    obtain ⟨line, -, hx2⟩ := h3
    split at hx2
    · exact absurd hx2 (List.not_mem_nil x)
    · exact metricPhraseLine_snd_nonneg _ _ _ _ x hx2

theorem extract_numeric_pair_context_snd_nonneg (value full_text : Str) :
    ∀ x ∈ extract_numeric_pair_context value full_text, 0 ≤ x.2 := by
  intro x hx
  unfold extract_numeric_pair_context at hx
  dsimp only at hx
  split at hx
  · exact absurd hx (List.not_mem_nil x)
  · have h1 := List.mem_of_mem_take hx
    obtain ⟨c, q⟩ := x
    obtain ⟨q0, hq0, hq⟩ := mem_dedupPairContexts _ _ _ c q h1
    have h3 := mem_sortByConfLenDesc _ _ hq0
    rw [List.mem_flatMap] at h3
    obtain ⟨line, -, hx2⟩ := h3
    have hq0n : 0 ≤ q0 := by
      repeat' split at hx2
      all_goals first
        | exact absurd hx2 (List.not_mem_nil _)
        | (rw [List.mem_singleton, Prod.mk.injEq] at hx2; rw [hx2.2]; norm_num)
    rcases hq with h | h
    · rw [h]; exact hq0n
    · rw [h]
      rcases le_total (1 : ℚ) (q0 + 1/10) with hle | hle
      · rw [min_eq_left hle]; norm_num
      · rw [min_eq_right hle]; linarith

theorem headGate_some (g : ℚ → ℚ) (l : List (Str × ℚ)) (c : Str) (q : ℚ)
    (hl : ∀ x ∈ l, 0 ≤ x.2) (hg : ∀ a, 0 ≤ a → 0 ≤ g a)
    (h : headGate g l = some (c, q)) :
    0 ≤ q ∧ hasArtifact c = false := by
  rcases l with _ | ⟨⟨c0, q0⟩, rest⟩
  · exact absurd h (Option.noConfusion)
  · simp only [headGate] at h
    cases hb : hasArtifact c0
    · rw [hb] at h
      simp only [Bool.false_eq_true, if_false, Option.some.injEq, Prod.mk.injEq] at h
      obtain ⟨hc, hq⟩ := h
      subst hc
      subst hq
      exact ⟨round3_nonneg _ (hg q0 (hl (c0, q0) (List.mem_cons_self _ _))), hb⟩
    · rw [hb] at h
      simp only [if_true] at h
      exact absurd h (Option.noConfusion)

theorem numericFirstPass_nonneg_artifact_free (value full_text : Str) (c : Str) (q : ℚ)
    (h : numericFirstPass value full_text = some (c, q)) :
    0 ≤ q ∧ hasArtifact c = false := by
  unfold numericFirstPass at h
  split at h
  · rename_i r heq
    rw [Option.some.injEq] at h
    subst h
    exact headGate_some _ _ _ _ (extract_metric_phrase_snd_nonneg _ _ _)
      (fun a ha => ha) heq
  · split at h
    · rename_i r heq
      rw [Option.some.injEq] at h
      subst h
      exact headGate_some _ _ _ _ (extract_numeric_pair_context_snd_nonneg _ _)
        (fun a ha => ha) heq
    · exact headGate_some _ _ _ _ (extract_numeric_context_window_snd_nonneg _ _)
        (fun a ha => ha) h

theorem numericFallback_nonneg_artifact_free (value full_text : Str) (c : Str) (q : ℚ)
    (h : numericFallback value full_text = some (c, q)) :
    0 ≤ q ∧ hasArtifact c = false := by
  unfold numericFallback at h
  split at h
  · rename_i r heq
    rw [Option.some.injEq] at h
    subst h
    exact headGate_some _ _ _ _ (extract_metric_phrase_snd_nonneg _ _ _)
      (fun a ha => mul_nonneg ha (by norm_num)) heq
  · exact headGate_some _ _ _ _ (extract_numeric_pair_context_snd_nonneg _ _)
      (fun a ha => mul_nonneg ha (by norm_num)) h

theorem clauseCandidates_snd_nonneg (field value : Str)
    (relevant : List (Str × Nat × ℚ)) (h : ∀ t ∈ relevant, 0 ≤ t.2.2) :
    ∀ u ∈ relevant.filterMap (fun t =>
      if !(find_minimal_relevant_clause (split_into_clauses t.1) field value).1.isEmpty then
        some ((find_minimal_relevant_clause (split_into_clauses t.1) field value).1, t.2.1,
          (t.2.2 + (find_minimal_relevant_clause (split_into_clauses t.1) field value).2) / 2)
      else none), 0 ≤ u.2.2 := by
  intro u hu
  rw [List.mem_filterMap] at hu
  obtain ⟨t, ht, hut⟩ := hu
  split at hut
  · rw [Option.some.injEq] at hut
    rw [← hut]
    have h1 := (find_minimal_relevant_clause_snd_bounds (split_into_clauses t.1) field value).1
    have h2 := h t ht
    exact div_nonneg (add_nonneg h2 h1) (by norm_num)
  · exact absurd hut (Option.noConfusion)

theorem clausePhase_snd_nonneg (normalized_field field value : Str) (is_numeric : Bool)
    (relevant : List (Str × Nat × ℚ)) (c : Str) (q : ℚ)
    (hrel : ∀ t ∈ relevant, 0 ≤ t.2.2)
    (h : clausePhase normalized_field field value is_numeric relevant = some (c, q)) :
    0 ≤ q := by
  unfold clausePhase at h
  dsimp only at h
  repeat' split at h
  all_goals try exact absurd h (Option.noConfusion)
  all_goals rw [Option.some.injEq, Prod.mk.injEq] at h
  all_goals rw [← h.2]
  all_goals try norm_num
  -- CEO branch, full `said:` quote found
  · rename_i fq conf heq
    obtain ⟨t, ht, hft⟩ := List.exists_of_findSome?_eq_some heq
    rw [Option.map_eq_some'] at hft
    obtain ⟨span, -, hsp⟩ := hft
    rw [Prod.mk.injEq] at hsp
    rw [← hsp.2]
    exact round3_nonneg _ (hrel t ht)
  -- CEO branch, best quote clause
  · rename_i bq fstn qc tail heq
    have hmem := List.mem_cons_self (bq, fstn, qc) tail
    rw [← heq] at hmem
    have h1 := List.mem_of_mem_filter hmem
    have h2 := mem_sortDescBy _ _ _ h1
    exact round3_nonneg _ (clauseCandidates_snd_nonneg field value relevant hrel _ h2)
  -- numeric branch, Tysers special case
  · rename_i r heq
    split at heq
    · obtain ⟨t, ht, hft⟩ := List.exists_of_findSome?_eq_some heq
      split at hft
      · rw [Option.some.injEq] at hft
        rw [← hft]
        exact round3_nonneg _ (hrel t ht)
      · exact absurd hft (Option.noConfusion)
    · exact absurd heq (Option.noConfusion)
  -- numeric branch, best clause
  · rename_i bc fstn bconf tail heq1 x heq2 hart
    have hmem := List.mem_cons_self (bc, fstn, bconf) tail
    rw [← heq1] at hmem
    have h2 := mem_sortDescBy _ _ _ hmem
    exact round3_nonneg _ (clauseCandidates_snd_nonneg field value relevant hrel _ h2)
  -- general branch, best clause passing the fuzzy bar
  · rename_i bc fstn bconf tail heq hfuzz hart
    have hmem := List.mem_cons_self (bc, fstn, bconf) tail
    rw [← heq] at hmem
    have h2 := mem_sortDescBy _ _ _ hmem
    exact round3_nonneg _ (clauseCandidates_snd_nonneg field value relevant hrel _ h2)

theorem clausePhase_artifact_free (normalized_field field value : Str) (is_numeric : Bool)
    (relevant : List (Str × Nat × ℚ)) (c : Str) (q : ℚ)
    (hceo : isCeoStatementField normalized_field = false)
    (htys : (containsSub ("tysers").toList (pyLower normalized_field) &&
      containsSub ("months").toList (pyLower value)) = false)
    (h : clausePhase normalized_field field value is_numeric relevant = some (c, q)) :
    hasArtifact c = false := by
  unfold clausePhase at h
  dsimp only at h
  rw [hceo, htys] at h
  simp only [Bool.false_eq_true, if_false] at h
  repeat' split at h
  all_goals try exact absurd h (Option.noConfusion)
  all_goals rw [Option.some.injEq, Prod.mk.injEq] at h
  all_goals rw [← h.1]
  all_goals try rfl
  all_goals rename_i hart
  all_goals simp only [Bool.not_eq_true] at hart
  all_goals exact hart

theorem recoveryPhase_snd_nonneg (field value : Str) (sents : List (Str × Nat))
    (c : Str) (q : ℚ) (h : recoveryPhase field value sents = some (c, q)) : 0 ≤ q := by
  unfold recoveryPhase at h
  dsimp only at h
  split at h
  · rename_i br rc tail heq
    rw [Option.some.injEq, Prod.mk.injEq] at h
    rw [← h.2]
    have hmem := List.mem_cons_self (br, rc) tail
    rw [← heq] at hmem
    have h1 := mem_sortDescBy _ _ _ hmem
    rw [List.mem_filterMap] at h1
    obtain ⟨p, -, hp⟩ := h1
    split at hp
    · split at hp
      · rw [Option.some.injEq, Prod.mk.injEq] at hp
        rename_i hcond
        rw [Bool.and_eq_true] at hcond
        have h30 : (3/10 : ℚ) < (find_minimal_relevant_clause (split_into_clauses p.1) field value).2 := by
          have := hcond.2
          rw [decide_eq_true_iff] at this
          exact this
        rw [← hp.2]
        apply round3_nonneg
        linarith
      · exact absurd hp (Option.noConfusion)
    · exact absurd hp (Option.noConfusion)
  · exact absurd h (Option.noConfusion)

theorem relevantList_snd_nonneg (nf value : Str) (sents : List (Str × Nat))
    (g a : List (Str × List Str)) (st : ℚ) (n : Bool) :
    ∀ t ∈ sents.filterMap (fun p =>
      if (is_relevant_sentence nf p.1 value g a st n).1 then
        some (p.1, p.2, (is_relevant_sentence nf p.1 value g a st n).2)
      else none), 0 ≤ t.2.2 := by
  intro t ht
  rw [List.mem_filterMap] at ht
  obtain ⟨p, -, hp⟩ := ht
  split at hp
  · rw [Option.some.injEq] at hp
    rw [← hp]
    exact is_relevant_sentence_snd_nonneg _ _ _ _ _ _ _
  · exact absurd hp (Option.noConfusion)

theorem generate_context_for_field_snd_nonneg (field value full_text : Str)
    (s1 s2 : ℚ) (er : Bool) :
    0 ≤ (generate_context_for_field field value full_text s1 s2 er).2 := by
  unfold generate_context_for_field
  dsimp only
  repeat' split
  all_goals try norm_num
  -- numeric first pass
  · rename_i r heq
    split at heq
    · obtain ⟨c0, q0⟩ := r
      exact (numericFirstPass_nonneg_artifact_free _ _ _ _ heq).1
    · exact absurd heq (Option.noConfusion)
  -- clause phase
  · rename_i r heq
    split at heq
    · obtain ⟨c0, q0⟩ := r
      exact clausePhase_snd_nonneg _ _ _ _ _ _ _
        (relevantList_snd_nonneg _ _ _ _ _ _ _) heq
    · exact absurd heq (Option.noConfusion)
  -- recovery
  · rename_i r heq
    split at heq
    · obtain ⟨c0, q0⟩ := r
      exact recoveryPhase_snd_nonneg _ _ _ _ _ heq
    · exact absurd heq (Option.noConfusion)
  -- numeric fallback
  · rename_i r heq
    split at heq
    · obtain ⟨c0, q0⟩ := r
      exact (numericFallback_nonneg_artifact_free _ _ _ _ heq).1
    · exact absurd heq (Option.noConfusion)

theorem pyRfindChar_getElem (c : Char) (s : Str) (i : ℤ)
    (h : pyRfindChar c s = i) (hi : 0 ≤ i) : s[i.toNat]? = some c := by
  unfold pyRfindChar at h
  split at h
  · rename_i i0 hmax
    have hmem := List.max?_mem (fun a b => max_choice a b) hmax
    rw [List.mem_map] at hmem
    obtain ⟨p, hp, hfst⟩ := hmem
    rw [List.mem_filter] at hp
    obtain ⟨hpe, hpc⟩ := hp
    rw [List.mem_enum_iff_getElem?] at hpe
    rw [decide_eq_true_iff] at hpc
    rw [← h]
    rw [Int.toNat_natCast]
    rw [hfst] at hpe
    rw [hpc] at hpe
    exact hpe
  · rw [← h] at hi
    norm_num at hi

theorem pyRfindChar_replicate (c a : Char) (h : a ≠ c) (n : Nat) :
    pyRfindChar c (List.replicate n a) = -1 := by
  unfold pyRfindChar
  have hf : (List.replicate n a).enum.filter (fun p => p.2 = c) = [] := by
    rw [List.filter_eq_nil_iff]
    intro p hp
    rw [List.mem_enum_iff_getElem?] at hp
    rw [List.getElem?_replicate] at hp
    split at hp
    · rw [Option.some.injEq] at hp
      rw [decide_eq_true_iff]
      rw [← hp]
      exact h
    · exact absurd hp (Option.noConfusion)
  rw [hf]
  rfl

theorem foldRfindMax_cases (s : Str) (l : List Char) (acc : ℤ) :
    l.foldl (fun acc c =>
      let pos := pyRfindChar c s
      if pos > acc then pos else acc) acc = acc ∨
    ∃ ch ∈ l, l.foldl (fun acc c =>
      let pos := pyRfindChar c s
      if pos > acc then pos else acc) acc = pyRfindChar ch s := by
  induction l generalizing acc with
  | nil => left; rfl
  | cons c cs ih =>
    rw [List.foldl_cons]
    dsimp only
    by_cases hc : pyRfindChar c s > acc
    · rw [if_pos hc]
      rcases ih (pyRfindChar c s) with h | ⟨ch, hch, h⟩
      · right; exact ⟨c, List.mem_cons_self _ _, h⟩
      · right; exact ⟨ch, List.mem_cons_of_mem _ hch, h⟩
    · rw [if_neg hc]
      rcases ih acc with h | ⟨ch, hch, h⟩
      · left; exact h
      · right; exact ⟨ch, List.mem_cons_of_mem _ hch, h⟩

theorem lastClauseEnd_cases (s : Str) :
    lastClauseEnd s = -1 ∨
    ∃ ch ∈ clauseEndings, lastClauseEnd s = pyRfindChar ch s :=
  foldRfindMax_cases s clauseEndings (-1)

theorem pyStrip_getLast_of_nonws (w : Str) (ch : Char) (h : isWsChar ch = false) :
    (pyStrip (w ++ [ch])).getLast? = some ch := by
  unfold pyStrip
  rw [List.dropWhile_append]
  split
  · rw [List.dropWhile_cons]
    rw [h]
    simp only [Bool.false_eq_true, if_false, List.dropWhile_nil]
    rw [List.reverse_cons, List.reverse_nil, List.nil_append]
    rw [List.dropWhile_cons]
    rw [h]
    simp only [Bool.false_eq_true, if_false]
    rw [List.reverse_cons, List.reverse_nil, List.nil_append]
    rfl
  · rw [List.reverse_append]
    rw [List.reverse_cons, List.reverse_nil, List.nil_append]
    rw [List.singleton_append]
    rw [List.dropWhile_cons]
    rw [h]
    simp only [Bool.false_eq_true, if_false]
    rw [List.reverse_cons]
    exact List.getLast?_concat _

theorem pyStrip_replicate_nonws (n : Nat) (a : Char) (h : isWsChar a = false) :
    pyStrip (List.replicate n a) = List.replicate n a := by
  unfold pyStrip
  have hd : ∀ m : Nat, List.dropWhile isWsChar (List.replicate m a) = List.replicate m a := by
    intro m
    cases m with
    | zero => rfl
    | succ k =>
      rw [List.replicate_succ, List.dropWhile_cons, h]
      simp only [Bool.false_eq_true, if_false]
  rw [hd n, List.reverse_replicate, hd n, List.reverse_replicate]

theorem clauseEndings_nonws (ch : Char) (h : ch ∈ clauseEndings) :
    isWsChar ch = false := by
  simp only [clauseEndings, List.mem_cons, List.not_mem_nil, or_false] at h
  rcases h with h | h | h | h <;> subst h <;> decide

theorem handle_truncation_branches (context : Str) (h2 : 2000 < context.length) :
    ((1400 : ℚ) < (lastClauseEnd (context.take 2000) : ℚ) →
      ∃ ch ∈ clauseEndings,
        (handle_truncation_and_chopping context 2000).getLast? = some ch) ∧
    ((lastClauseEnd (context.take 2000) : ℚ) ≤ 1400 →
      (1600 : ℚ) < (pyRfindChar ' ' (context.take 2000) : ℚ) →
      handle_truncation_and_chopping context 2000 =
        pyStrip ((context.take 2000).take (pyRfindChar ' ' (context.take 2000)).toNat)
          ++ ("...").toList ∧
      (context.take 2000)[(pyRfindChar ' ' (context.take 2000)).toNat]? = some ' ') ∧
    ((lastClauseEnd (context.take 2000) : ℚ) ≤ 1400 →
      (pyRfindChar ' ' (context.take 2000) : ℚ) ≤ 1600 →
      handle_truncation_and_chopping context 2000 =
        pyStrip (context.take 2000) ++ ("...").toList) := by
  have hne : context.isEmpty = false := by
    cases context with
    | nil => norm_num at h2
    | cons a l => rfl
  have hlen : decide (context.length ≤ 2000) = false := decide_eq_false (by omega)
  have hcond : (context.isEmpty || decide (context.length ≤ 2000)) = false := by
    rw [hne, hlen]
    rfl
  unfold handle_truncation_and_chopping
  rw [hcond]
  simp only [Bool.false_eq_true, if_false]
  refine ⟨?_, ?_, ?_⟩
  · intro hle
    split
    · rcases lastClauseEnd_cases (context.take 2000) with hc | ⟨ch, hch, hc⟩
      · rw [hc] at hle; norm_num at hle
      · refine ⟨ch, hch, ?_⟩
        have h0 : (0 : ℤ) ≤ lastClauseEnd (context.take 2000) := by
          have h1 : (0 : ℚ) < (lastClauseEnd (context.take 2000) : ℚ) :=
            lt_trans (by norm_num) hle
          exact_mod_cast h1.le
        have hget := pyRfindChar_getElem ch (context.take 2000) _ hc.symm h0
        have htn : (lastClauseEnd (context.take 2000) + 1).toNat =
            (lastClauseEnd (context.take 2000)).toNat + 1 := by omega
        rw [htn, List.take_succ, hget]
        exact pyStrip_getLast_of_nonws _ ch (clauseEndings_nonws ch hch)
    · rename_i hcontra
      exfalso
      apply hcontra
      push_cast
      linarith
  · intro hle hsp
    split
    · rename_i hcontra
      push_cast at hcontra
      linarith
    · split
      · refine ⟨rfl, ?_⟩
        have h0 : (0 : ℤ) ≤ pyRfindChar ' ' (context.take 2000) := by
          have h1 : (0 : ℚ) < (pyRfindChar ' ' (context.take 2000) : ℚ) :=
            lt_trans (by norm_num) hsp
          exact_mod_cast h1.le
        exact pyRfindChar_getElem ' ' (context.take 2000) _ rfl h0
      · rename_i hcontra
        exfalso
        apply hcontra
        push_cast
        linarith
  · intro hle hsp
    split
    · rename_i hcontra
      push_cast at hcontra
      linarith
    · split
      · rename_i hcontra
        push_cast at hcontra
        linarith
      · rfl

theorem lastClauseEnd_replicate_a (n : Nat) :
    lastClauseEnd (List.replicate n 'a') = -1 := by
  unfold lastClauseEnd clauseEndings
  simp only [List.foldl_cons, List.foldl_nil]
  rw [show pyRfindChar ('.') (List.replicate n 'a') = -1 from
      pyRfindChar_replicate _ _ (by decide) _,
    show pyRfindChar ('!') (List.replicate n 'a') = -1 from
      pyRfindChar_replicate _ _ (by decide) _,
    show pyRfindChar ('?') (List.replicate n 'a') = -1 from
      pyRfindChar_replicate _ _ (by decide) _,
    show pyRfindChar (';') (List.replicate n 'a') = -1 from
      pyRfindChar_replicate _ _ (by decide) _]
  norm_num

theorem trunc_replicate_raw :
    handle_truncation_and_chopping (List.replicate 2100 'a') 2000 =
      List.replicate 2000 'a' ++ ("...").toList := by
  have htake : (List.replicate 2100 'a').take 2000 = List.replicate 2000 'a' := by
    rw [List.take_replicate]
    norm_num
  have hmain := (handle_truncation_branches (List.replicate 2100 'a')
    (by rw [List.length_replicate]; norm_num)).2.2
  rw [htake] at hmain
  rw [lastClauseEnd_replicate_a] at hmain
  rw [show pyRfindChar (' ') (List.replicate 2000 'a') = -1 from
    pyRfindChar_replicate _ _ (by decide) _] at hmain
  have h := hmain (by norm_num) (by norm_num)
  rw [pyStrip_replicate_nonws 2000 'a' (by decide)] at h
  exact h

theorem qualityGate_out (c : Str) (q : ℚ) (c2 : Str) (q2 : ℚ)
    (hg : qualityGate c q = (c2, q2)) (h : c2 ≠ []) :
    6/10 ≤ q2 ∧ hasArtifact c2 = false ∧ c2 = c ∧ q2 = q := by
  unfold qualityGate at hg
  repeat' split at hg
  all_goals rw [Prod.mk.injEq] at hg
  all_goals obtain ⟨hc, hq⟩ := hg
  all_goals subst hc
  all_goals subst hq
  · exact absurd rfl h
  · exact absurd rfl h
  · exact absurd rfl h
  · rename_i h1 h2 h3 h4
    refine ⟨le_of_not_lt h4, ?_, rfl, rfl⟩
    rw [Bool.not_eq_true] at h2
    exact h2
  · rename_i h1
    cases hb : List.isEmpty c
    · rw [hb] at h1
      exact absurd h1 (by decide)
    · rw [List.isEmpty_iff] at hb
      exact absurd hb h

theorem preGatePair_hit (compute : Str → Str → Str × ℚ)
    (cache : List (Str × (Str × ℚ))) (field value : Str) (p : Str × (Str × ℚ))
    (h : cache.find? (fun e => e.1 = cacheKey field value) = some p) :
    preGatePair compute cache field value = (p.2, cache) := by
  unfold preGatePair
  dsimp only
  rw [h]

theorem preGatePair_spec (compute : Str → Str → Str × ℚ)
    (cache : List (Str × (Str × ℚ))) (field value : Str) (r : Str × ℚ)
    (newCache : List (Str × (Str × ℚ)))
    (h : preGatePair compute cache field value = (r, newCache)) :
    newCache = cache ∨
    (newCache = cache ++ [(cacheKey field value, r)] ∧ r = compute field value ∧
      ¬r.1.isEmpty ∧ r.2 > 1/2) := by
  unfold preGatePair at h
  dsimp only at h
  split at h
  · rw [Prod.mk.injEq] at h
    left
    exact h.2.symm
  · split at h
    · rename_i hc
      rw [Prod.mk.injEq] at h
      rw [Bool.and_eq_true, Bool.not_eq_true'] at hc
      right
      refine ⟨?_, h.1.symm, ?_, ?_⟩
      · rw [← h.1, ← h.2]
      · rw [← h.1]
        rw [Bool.not_eq_true (List.isEmpty (compute field value).1)]
        exact hc.1
      · rw [← h.1]
        have := hc.2
        rw [decide_eq_true_iff] at this
        exact this
    · rw [Prod.mk.injEq] at h
      left
      exact h.2.symm

theorem foldl_invariant {α β : Type} (P : α → Prop) (f : α → β → α) (l : List β)
    (a : α) (h0 : P a) (hstep : ∀ x b, b ∈ l → P x → P (f x b)) : P (l.foldl f a) := by
  induction l generalizing a with
  | nil => exact h0
  | cons b bs ih =>
    rw [List.foldl_cons]
    exact ih (f a b) (hstep a b (List.mem_cons_self _ _)
      h0) (fun x c hc hx => hstep x c (List.mem_cons_of_mem _ hc) hx)

theorem stepFact_records_gate (compute : Str → Str → Str × ℚ)
    (mkRecord : Str → Str → Str → ℚ → Bool → ContextRecord)
    (hmk : ∀ f v c q b, (mkRecord f v c q b).context = c ∧
      (mkRecord f v c q b).context_confidence = q)
    (st : IState) (fv : Str × Str)
    (hst : ∀ r ∈ st.records, r.context ≠ [] →
      6/10 ≤ r.context_confidence ∧ hasArtifact r.context = false) :
    ∀ r ∈ (stepFact compute mkRecord st fv).records, r.context ≠ [] →
      6/10 ≤ r.context_confidence ∧ hasArtifact r.context = false := by
  intro r hr hrc
  unfold stepFact at hr
  dsimp only at hr
  split at hr
  · exact hst r hr hrc
  · split at hr
    all_goals rw [List.mem_append, List.mem_singleton] at hr
    all_goals rcases hr with hr | hr
    · exact hst r hr hrc
    · subst hr
      rw [(hmk _ _ _ _ _).1] at hrc ⊢
      rw [(hmk _ _ _ _ _).2]
      have hout := qualityGate_out _ _ _ _ (Prod.mk.eta (p := qualityGate
        (preGatePair compute st.cache fv.1 fv.2).1.1
        (preGatePair compute st.cache fv.1 fv.2).1.2)).symm hrc
      exact ⟨hout.1, hout.2.1⟩
    · exact hst r hr hrc
    · subst hr
      rw [(hmk _ _ _ _ _).1] at hrc ⊢
      rw [(hmk _ _ _ _ _).2]
      have hout := qualityGate_out _ _ _ _ (Prod.mk.eta (p := qualityGate
        (preGatePair compute st.cache fv.1 fv.2).1.1
        (preGatePair compute st.cache fv.1 fv.2).1.2)).symm hrc
      exact ⟨hout.1, hout.2.1⟩

theorem stepFact_cache_inv (compute : Str → Str → Str × ℚ)
    (mkRecord : Str → Str → Str → ℚ → Bool → ContextRecord)
    (P : Str × (Str × ℚ) → Prop) (st : IState) (fv : Str × Str)
    (hst : ∀ e ∈ st.cache, P e)
    (hnew : ∀ f v r, r = compute f v → ¬r.1.isEmpty → r.2 > 1/2 →
      P (cacheKey f v, r)) :
    ∀ e ∈ (stepFact compute mkRecord st fv).cache, P e := by
  intro e he
  unfold stepFact at he
  dsimp only at he
  split at he
  · exact hst e he
  · split at he
    all_goals (
      rcases hpc : preGatePair compute st.cache fv.1 fv.2 with ⟨r0, nc⟩
      rw [hpc] at he
      rcases preGatePair_spec _ _ _ _ _ _ hpc with hsp | ⟨hsp, hr, hne, hconf⟩
      · rw [hsp] at he
        exact hst e he
      · rw [hsp] at he
        rw [List.mem_append, List.mem_singleton] at he
        rcases he with he | he
        · exact hst e he
        · subst he
          exact hnew _ _ _ hr hne hconf)

theorem tableStep_records_gate (ft : Str) (st : IState) (tp : Nat × TableInput)
    (hst : ∀ r ∈ st.records, r.context ≠ [] →
      6/10 ≤ r.context_confidence ∧ hasArtifact r.context = false) :
    ∀ r ∈ (tableStep ft st tp).records, r.context ≠ [] →
      6/10 ≤ r.context_confidence ∧ hasArtifact r.context = false := by
  unfold tableStep
  split
  · exact hst
  · refine foldl_invariant (fun st : IState => ∀ r ∈ st.records, r.context ≠ [] →
      6/10 ≤ r.context_confidence ∧ hasArtifact r.context = false) _ _ _ hst ?_
    intro x b hb hx
    unfold tableFactStep
    exact stepFact_records_gate _ _ (fun f v c q b2 => ⟨rfl, rfl⟩) x b hx

theorem chunkStep_records_gate (ft : Str) (st : IState) (cp : Nat × ChunkInput)
    (hst : ∀ r ∈ st.records, r.context ≠ [] →
      6/10 ≤ r.context_confidence ∧ hasArtifact r.context = false) :
    ∀ r ∈ (chunkStep ft st cp).records, r.context ≠ [] →
      6/10 ≤ r.context_confidence ∧ hasArtifact r.context = false := by
  unfold chunkStep
  split
  · exact hst
  · refine foldl_invariant (fun st : IState => ∀ r ∈ st.records, r.context ≠ [] →
      6/10 ≤ r.context_confidence ∧ hasArtifact r.context = false) _ _ _ hst ?_
    intro x b hb hx
    unfold chunkFactStep
    exact stepFact_records_gate _ _ (fun f v c q b2 => ⟨rfl, rfl⟩) x b hx

theorem integrate_core_records_gate (cache0 : List (Str × (Str × ℚ)))
    (d : List Str) (tables : List TableInput) (kv : KVInput)
    (chunks : List ChunkInput) :
    ∀ r ∈ (integrate_core cache0 d tables kv chunks).records, r.context ≠ [] →
      6/10 ≤ r.context_confidence ∧ hasArtifact r.context = false := by
  unfold integrate_core
  dsimp only
  have h0 : ∀ r ∈ (⟨[], cache0, 0, 0, 0⟩ : IState).records, r.context ≠ [] →
      6/10 ≤ r.context_confidence ∧ hasArtifact r.context = false := by
    intro r hr
    exact absurd hr (List.not_mem_nil r)
  have hT := foldl_invariant (fun st : IState => ∀ r ∈ st.records, r.context ≠ [] →
      6/10 ≤ r.context_confidence ∧ hasArtifact r.context = false)
    (tableStep (joinSpace d)) (tables.enum) _ h0
    (fun x b hb hx => tableStep_records_gate _ x b hx)
  have hK : ∀ r ∈ (if (kv.structured_key_values.isEmpty || kv.hasError) = true then
        (tables.enum).foldl (tableStep (joinSpace d)) ⟨[], cache0, 0, 0, 0⟩
      else kv.structured_key_values.foldl (kvFactStep (joinSpace d))
        ((tables.enum).foldl (tableStep (joinSpace d)) ⟨[], cache0, 0, 0, 0⟩)).records,
      r.context ≠ [] →
      6/10 ≤ r.context_confidence ∧ hasArtifact r.context = false := by
    split
    · exact hT
    · refine foldl_invariant (fun st : IState => ∀ r ∈ st.records, r.context ≠ [] →
        6/10 ≤ r.context_confidence ∧ hasArtifact r.context = false) _ _ _ hT ?_
      intro x b hb hx
      unfold kvFactStep
      exact stepFact_records_gate _ _ (fun f v c q b2 => ⟨rfl, rfl⟩) x b hx
  exact foldl_invariant (fun st : IState => ∀ r ∈ st.records, r.context ≠ [] →
      6/10 ≤ r.context_confidence ∧ hasArtifact r.context = false)
    (chunkStep (joinSpace d)) (chunks.enum) _ hK
    (fun x b hb hx => chunkStep_records_gate _ x b hx)

theorem tableStep_cache_sound (ft : Str) (st : IState) (tp : Nat × TableInput)
    (hst : ∀ e ∈ st.cache, ¬e.2.1.isEmpty ∧ e.2.2 > 1/2 ∧ ∃ f v, e.1 = cacheKey f v ∧
      (e.2 = computeTablePair ft f v ∨ e.2 = computeKVPair ft f v)) :
    ∀ e ∈ (tableStep ft st tp).cache, ¬e.2.1.isEmpty ∧ e.2.2 > 1/2 ∧
      ∃ f v, e.1 = cacheKey f v ∧
      (e.2 = computeTablePair ft f v ∨ e.2 = computeKVPair ft f v) := by
  unfold tableStep
  split
  · exact hst
  · refine foldl_invariant (fun st : IState => ∀ e ∈ st.cache,
      ¬e.2.1.isEmpty ∧ e.2.2 > 1/2 ∧ ∃ f v, e.1 = cacheKey f v ∧
      (e.2 = computeTablePair ft f v ∨ e.2 = computeKVPair ft f v)) _ _ _ hst ?_
    intro x b hb hx
    unfold tableFactStep
    exact stepFact_cache_inv _ _ _ x b hx
      (fun f v r hr hne hconf => ⟨hr ▸ hne, hr ▸ hconf, f, v, rfl, Or.inl hr⟩)

theorem chunkStep_cache_sound (ft : Str) (st : IState) (cp : Nat × ChunkInput)
    (hst : ∀ e ∈ st.cache, ¬e.2.1.isEmpty ∧ e.2.2 > 1/2 ∧ ∃ f v, e.1 = cacheKey f v ∧
      (e.2 = computeTablePair ft f v ∨ e.2 = computeKVPair ft f v)) :
    ∀ e ∈ (chunkStep ft st cp).cache, ¬e.2.1.isEmpty ∧ e.2.2 > 1/2 ∧
      ∃ f v, e.1 = cacheKey f v ∧
      (e.2 = computeTablePair ft f v ∨ e.2 = computeKVPair ft f v) := by
  unfold chunkStep
  split
  · exact hst
  · refine foldl_invariant (fun st : IState => ∀ e ∈ st.cache,
      ¬e.2.1.isEmpty ∧ e.2.2 > 1/2 ∧ ∃ f v, e.1 = cacheKey f v ∧
      (e.2 = computeTablePair ft f v ∨ e.2 = computeKVPair ft f v)) _ _ _ hst ?_
    intro x b hb hx
    unfold chunkFactStep
    exact stepFact_cache_inv _ _ _ x b hx
      (fun f v r hr hne hconf => ⟨hr ▸ hne, hr ▸ hconf, f, v, rfl, Or.inr hr⟩)

theorem integrate_core_cache_sound (cache0 : List (Str × (Str × ℚ)))
    (d : List Str) (tables : List TableInput) (kv : KVInput)
    (chunks : List ChunkInput)
    (h0 : ∀ e ∈ cache0, ¬e.2.1.isEmpty ∧ e.2.2 > 1/2 ∧
      ∃ f v, e.1 = cacheKey f v ∧
      (e.2 = computeTablePair (joinSpace d) f v ∨
       e.2 = computeKVPair (joinSpace d) f v)) :
    ∀ e ∈ (integrate_core cache0 d tables kv chunks).cache,
      ¬e.2.1.isEmpty ∧ e.2.2 > 1/2 ∧ ∃ f v, e.1 = cacheKey f v ∧
      (e.2 = computeTablePair (joinSpace d) f v ∨
       e.2 = computeKVPair (joinSpace d) f v) := by
  unfold integrate_core
  dsimp only
  have hT := foldl_invariant (fun st : IState => ∀ e ∈ st.cache,
      ¬e.2.1.isEmpty ∧ e.2.2 > 1/2 ∧ ∃ f v, e.1 = cacheKey f v ∧
      (e.2 = computeTablePair (joinSpace d) f v ∨
       e.2 = computeKVPair (joinSpace d) f v))
    (tableStep (joinSpace d)) (tables.enum) (⟨[], cache0, 0, 0, 0⟩ : IState) h0
    (fun x b hb hx => tableStep_cache_sound _ x b hx)
  have hK : ∀ e ∈ (if (kv.structured_key_values.isEmpty || kv.hasError) = true then
        (tables.enum).foldl (tableStep (joinSpace d)) ⟨[], cache0, 0, 0, 0⟩
      else kv.structured_key_values.foldl (kvFactStep (joinSpace d))
        ((tables.enum).foldl (tableStep (joinSpace d)) ⟨[], cache0, 0, 0, 0⟩)).cache,
      ¬e.2.1.isEmpty ∧ e.2.2 > 1/2 ∧ ∃ f v, e.1 = cacheKey f v ∧
      (e.2 = computeTablePair (joinSpace d) f v ∨
       e.2 = computeKVPair (joinSpace d) f v) := by
    split
    · exact hT
    · refine foldl_invariant (fun st : IState => ∀ e ∈ st.cache,
        ¬e.2.1.isEmpty ∧ e.2.2 > 1/2 ∧ ∃ f v, e.1 = cacheKey f v ∧
        (e.2 = computeTablePair (joinSpace d) f v ∨
         e.2 = computeKVPair (joinSpace d) f v)) _ _ _ hT ?_
      intro x b hb hx
      unfold kvFactStep
      exact stepFact_cache_inv _ _ _ x b hx
        (fun f v r hr hne hconf => ⟨hr ▸ hne, hr ▸ hconf, f, v, rfl, Or.inr hr⟩)
  exact foldl_invariant (fun st : IState => ∀ e ∈ st.cache,
      ¬e.2.1.isEmpty ∧ e.2.2 > 1/2 ∧ ∃ f v, e.1 = cacheKey f v ∧
      (e.2 = computeTablePair (joinSpace d) f v ∨
       e.2 = computeKVPair (joinSpace d) f v))
    (chunkStep (joinSpace d)) (chunks.enum) _ hK
    (fun x b hb hx => chunkStep_cache_sound _ x b hx)

theorem headGate_some_fst (g : ℚ → ℚ) (l : List (Str × ℚ)) (c : Str) (q : ℚ)
    (h : headGate g l = some (c, q)) : ∃ q0, (c, q0) ∈ l := by
  rcases l with _ | ⟨⟨c0, q0⟩, rest⟩
  · exact absurd h (Option.noConfusion)
  · simp only [headGate] at h
    split at h
    · exact absurd h (Option.noConfusion)
    · rw [Option.some.injEq, Prod.mk.injEq] at h
      exact ⟨q0, h.1 ▸ List.mem_cons_self _ _⟩

theorem numericFirstPass_sub (value full_text : Str) (c : Str) (q : ℚ)
    (h : numericFirstPass value full_text = some (c, q)) : c <:+: full_text := by
  unfold numericFirstPass at h
  split at h
  · rename_i r heq
    rw [Option.some.injEq] at h
    subst h
    obtain ⟨q0, hq0⟩ := headGate_some_fst _ _ _ _ heq
    exact extract_metric_phrase_sub _ _ _ _ hq0
  · split at h
    · rename_i r heq
      rw [Option.some.injEq] at h
      subst h
      obtain ⟨q0, hq0⟩ := headGate_some_fst _ _ _ _ heq
      exact extract_numeric_pair_context_sub _ _ _ hq0
    · obtain ⟨q0, hq0⟩ := headGate_some_fst _ _ _ _ h
      exact extract_numeric_context_window_sub _ _ _ hq0

theorem generate_firstpass_eq (field value full_text : Str) (s1 s2 : ℚ) (er : Bool)
    (r : Str × ℚ)
    (hft : full_text.isEmpty = false) (hv : value.isEmpty = false)
    (hnum : is_numeric_value value = true)
    (hprob : is_problematic_field_name field = false)
    (h : numericFirstPass value full_text = some r) :
    generate_context_for_field field value full_text s1 s2 er = r := by
  unfold generate_context_for_field
  rw [hft, hv]
  simp only [Bool.or_self, Bool.false_eq_true, if_false]
  rw [hnum, hprob]
  simp only [Bool.not_false, Bool.and_self, if_true]
  rw [h]

theorem qualityGate_clears (c : Str) (q : ℚ) (hne : c.isEmpty = false)
    (h : hasArtifact c = true ∨ (500 < c.length ∧ q < 6/10) ∨ q < 6/10) :
    qualityGate c q = ([], 0) := by
  unfold qualityGate
  rw [hne]
  simp only [Bool.not_false, if_true]
  rcases h with h | ⟨h1, h2⟩ | h
  · rw [h]
    simp only [if_true]
  · split
    · rfl
    · rw [if_pos (by
        rw [Bool.and_eq_true, decide_eq_true_iff, decide_eq_true_iff]
        exact ⟨h1, h2⟩)]
  · repeat' split
    all_goals first
      | rfl
      | (rename_i hq; exact absurd h hq)

theorem is_relevant_sentence_problematic (field sentence value : Str)
    (g a : List (Str × List Str)) (t : ℚ) (n : Bool)
    (hpf : is_problematic_field_name field = true)
    (hacc : (is_relevant_sentence field sentence value g a t n).1 = true) :
    6/10 ≤ (is_relevant_sentence field sentence value g a t n).2 := by
  unfold is_problematic_field_name at hpf
  rcases hr : is_relevant_sentence field sentence value g a t n with ⟨acc, sc⟩
  rw [hr] at hacc
  dsimp only at hacc ⊢
  subst hacc
  unfold is_relevant_sentence at hr
  dsimp only at hr
  have hcond : (!n || problematic_fields.any (fun p => containsSub p (pyLower field)))
      = true := by
    rw [hpf, Bool.or_true]
  rw [hcond] at hr
  simp only [eq_self_iff_true, if_true] at hr
  repeat' split at hr
  all_goals rw [Prod.mk.injEq] at hr
  all_goals obtain ⟨ha2, hs2⟩ := hr
  all_goals try exact absurd ha2.symm (by decide)
  rw [← hs2]
  rw [Bool.or_eq_true, decide_eq_true_iff, decide_eq_true_iff] at ha2
  rcases ha2 with hx | hx
  · exact hx
  · linarith

theorem is_relevant_sentence_anti_reject (field sentence value : Str)
    (g a : List (Str × List Str)) (t : ℚ) (n : Bool)
    (h1 : sentence.isEmpty = false) (h2 : field.isEmpty = false)
    (h3 : ((a.map Prod.snd).flatten ++ assocGet (pyLower field) a).any
      (fun p => containsSub p (pyLower sentence)) = true) :
    is_relevant_sentence field sentence value g a t n = (false, 0) := by
  unfold is_relevant_sentence
  rw [h1, h2]
  simp only [Bool.or_self, Bool.false_eq_true, if_false]
  rw [h3]
  simp only [eq_self_iff_true, if_true]

/-! ## Claim theorems -/

section
attribute [local semireducible] Rat.mul Rat.add Rat.sub Rat.inv Rat.ofScientific

/-- Claim C1 (amended): on the numeric first-pass path (numeric,
non-problematic value on a non-empty document), the returned context is
exactly the numeric-pass candidate and its lower-casing is a substring of
the lower-cased raw document text.  (The original claim — a substring of
the `clean_ocr_artifacts`-cleaned document for every return path — fails
on the recovery path; see the counterexample.) -/
theorem claim_C1 (field value full_text : Str) (c : Str) (q : ℚ)
    (hft : full_text.isEmpty = false) (hv : value.isEmpty = false)
    (hnum : is_numeric_value value = true)
    (hprob : is_problematic_field_name field = false)
    (h : numericFirstPass value full_text = some (c, q)) :
    generateDefault field value full_text = (c, q) ∧
    containsSub (pyLower c) (pyLower full_text) = true := by
  constructor
  · unfold generateDefault
    exact generate_firstpass_eq _ _ _ _ _ _ _ hft hv hnum hprob h
  · rw [containsSub_iff]
    exact pyLower_sub (numericFirstPass_sub _ _ _ _ h)

/-- Witness for claim C1 at the comparative-NPAT document. -/
theorem claim_C1_witness :
    generateDefault (("Underlying_NPAT_1HFY23").toList) (("AUD 46.7mn").toList) c2doc
      = (c2phrase, 1) ∧
    containsSub (pyLower c2phrase) (pyLower c2doc) = true :=
  claim_C1 (("Underlying_NPAT_1HFY23").toList) (("AUD 46.7mn").toList) c2doc
    c2phrase 1 (by decide) (by decide) (by decide) (by decide) (by decide)

/-- Counterexample to the original claim C1: on `c1doc` the recovery path
returns the segment-cleaned sentence (with `markedBeta` split into
`marked Beta`), which is not a substring of the document even after
`clean_ocr_artifacts` is applied to both sides. -/
theorem claim_C1_counterexample :
    generateDefault (("Beta_Score").toList) (("zz9").toList) c1doc =
      (("The student grade was marked Beta as zz9 now.").toList, 1) ∧
    containsSub
      (pyLower (clean_ocr_artifacts
        (("The student grade was marked Beta as zz9 now.").toList)))
      (pyLower (clean_ocr_artifacts c1doc)) = false ∧
    (("The student grade was marked Beta as zz9 now.").toList : Str) ≠ [] :=
  ⟨by decide, by decide, by decide⟩

/-- Claim C2: on the comparative-NPAT line, querying the
`Underlying_NPAT_1HFY23` field with value `AUD 46.7mn` returns a context
containing both `46.7mn` and the complete parenthetical
`(1HFY22: AUD 30.6mn)`, with confidence 1.0. -/
theorem claim_C2 :
    generateDefault (("Underlying_NPAT_1HFY23").toList) (("AUD 46.7mn").toList) c2doc
      = (c2phrase, 1) ∧
    containsSub (("46.7mn").toList) c2phrase = true ∧
    containsSub (("(1HFY22: AUD 30.6mn)").toList) c2phrase = true :=
  ⟨by decide, by decide, by decide⟩

/-- Claim C3 (amended): every confidence returned by
`generate_context_for_field` is non-negative.  (The original upper bound
`confidence ≤ 1` fails on the clause-trimming path; see the
counterexample.) -/
theorem claim_C3 (field value full_text : Str) (st sem : ℚ) (er : Bool) :
    0 ≤ (generate_context_for_field field value full_text st sem er).2 :=
  generate_context_for_field_snd_nonneg field value full_text st sem er

/-- Counterexample to the original claim C3: on `c3doc` the clause path
averages the sentence score `1.2` with the clause score `1.0` and returns
confidence `1.1 > 1`. -/
theorem claim_C3_counterexample :
    (generateDefault (("Revenue_Earnings_Profit_Margin").toList)
      (("46.7mn").toList) c3doc).2 = 11/10 ∧ ¬((11 : ℚ)/10 ≤ 1) :=
  ⟨by decide, by norm_num⟩

/-- Claim C4 (amended): the artifact filter holds on the numeric first
pass, the numeric fallback, and the clause phase away from the CEO and
Tysers special cases — any candidate with a residual `+`/`?` makes these
strategies fall through or return empty.  (The original claim — no return
path ever yields an artifact — fails on the strict-recovery path; see the
counterexample.) -/
theorem claim_C4 (value full_text : Str) :
    (∀ c q, numericFirstPass value full_text = some (c, q) →
      hasArtifact c = false) ∧
    (∀ c q, numericFallback value full_text = some (c, q) →
      hasArtifact c = false) ∧
    (∀ normalized_field field is_numeric relevant c q,
      isCeoStatementField normalized_field = false →
      (containsSub (("tysers").toList) (pyLower normalized_field) &&
        containsSub (("months").toList) (pyLower value)) = false →
      clausePhase normalized_field field value is_numeric relevant = some (c, q) →
      hasArtifact c = false) :=
  ⟨fun c q h => (numericFirstPass_nonneg_artifact_free _ _ _ _ h).2,
   fun c q h => (numericFallback_nonneg_artifact_free _ _ _ _ h).2,
   fun nf f num rel c q h1 h2 h3 =>
     clausePhase_artifact_free nf f value num rel c q h1 h2 h3⟩

/-- Witness for claim C4: the numeric first pass on the comparative-NPAT
document returns an artifact-free span. -/
theorem claim_C4_witness :
    numericFirstPass (("AUD 46.7mn").toList) c2doc = some (c2phrase, 1) ∧
    hasArtifact c2phrase = false :=
  ⟨by decide, (claim_C4 (("AUD 46.7mn").toList) c2doc).1 c2phrase 1 (by decide)⟩

/-- Counterexample to the original claim C4: on `c4doc` the
strict-recovery path (which has no artifact check) returns a span
containing `+`. -/
theorem claim_C4_counterexample :
    generateDefault (("Grade_Code").toList) (("b+").toList) c4doc =
      (("student grade marked as b+ overall today fine.").toList, 1) ∧
    hasArtifact (("student grade marked as b+ overall today fine.").toList) = true :=
  ⟨by decide, by decide⟩

/-- Claim C5: a sentence containing any blacklisted anti-pattern phrase
(of any category, or of the field-specific category) is rejected
immediately with confidence 0; in particular the `Blood_Group`/`O+` query
against the blood-money document returns empty with confidence 0. -/
theorem claim_C5 :
    (∀ field sentence value g a t n,
      sentence.isEmpty = false → field.isEmpty = false →
      (((a : List (Str × List Str)).map Prod.snd).flatten ++
        assocGet (pyLower field) a).any
          (fun p => containsSub p (pyLower sentence)) = true →
      is_relevant_sentence field sentence value g a t n = (false, 0)) ∧
    generateDefault (("Blood_Group").toList) (("O+").toList) c5doc = ([], 0) :=
  ⟨fun field sentence value g a t n h1 h2 h3 =>
    is_relevant_sentence_anti_reject field sentence value g a t n h1 h2 h3,
   by decide⟩

/-- Witness for claim C5: the blood-money sentence triggers an
anti-pattern for the `Blood_Group` field. -/
theorem claim_C5_witness :
    is_relevant_sentence (("Blood_Group").toList) c5doc (("O+").toList)
      get_enhanced_semantic_groups get_enhanced_anti_patterns (55/100) false
      = (false, 0) :=
  (claim_C5).1 (("Blood_Group").toList) c5doc (("O+").toList)
    get_enhanced_semantic_groups get_enhanced_anti_patterns (55/100) false
    (by decide) (by decide) (by decide)

/-- Claim C6: a fresh result is cached only when non-empty with confidence
above 0.5; the final quality gate clears a non-empty span that contains an
artifact, exceeds 500 characters with confidence below 0.6, or has
confidence below 0.6, and passes it through unchanged otherwise; hence
every emitted record with a non-empty context has confidence at least 0.6
and an artifact-free span. -/
theorem claim_C6 :
    (∀ compute cache f v r nc, preGatePair compute cache f v = (r, nc) →
      nc = cache ∨
      (nc = cache ++ [(cacheKey f v, r)] ∧ r = compute f v ∧
        ¬r.1.isEmpty ∧ r.2 > 1/2)) ∧
    (∀ c q, c.isEmpty = false →
      (hasArtifact c = true ∨ (500 < c.length ∧ q < 6/10) ∨ q < 6/10) →
      qualityGate c q = ([], 0)) ∧
    (∀ c q c2 q2, qualityGate c q = (c2, q2) → c2 ≠ [] →
      6/10 ≤ q2 ∧ hasArtifact c2 = false ∧ c2 = c ∧ q2 = q) ∧
    (∀ d tables kv chunks,
      ∀ rec ∈ (integrate_context_tracking d tables kv chunks).records,
        rec.context ≠ [] → 6/10 ≤ rec.context_confidence ∧
          hasArtifact rec.context = false) := by
  refine ⟨fun compute cache f v r nc h => preGatePair_spec compute cache f v r nc h,
    fun c q h1 h2 => qualityGate_clears c q h1 h2,
    fun c q c2 q2 hg h => qualityGate_out c q c2 q2 hg h, ?_⟩
  intro d tables kv chunks rec hrec
  unfold integrate_context_tracking at hrec
  split at hrec
  · exact absurd hrec (List.not_mem_nil rec)
  · exact integrate_core_records_gate [] d tables kv chunks rec hrec

/-- Witness for claim C6: the quality gate passes a short artifact-free
span with confidence 0.7. -/
theorem claim_C6_witness :
    6/10 ≤ (7 : ℚ)/10 ∧ hasArtifact (("abc").toList) = false ∧
    (("abc").toList : Str) = ("abc").toList ∧ (7 : ℚ)/10 = 7/10 :=
  (claim_C6).2.2.1 (("abc").toList) (7/10) (("abc").toList) (7/10)
    (by decide) (by decide)

/-- Claim C7: the acceptance threshold is adaptive to the value shape —
numeric, short, code-like or date-like values get 0.25, longer free-text
values get 0.45, the field argument is ignored by
`determine_adaptive_threshold`, and for the collision-prone
(`problematic`) fields an accepted sentence always scores at least the
fixed 0.6 bar regardless of value shape. -/
theorem claim_C7 (field field2 value : Str) :
    (value.isEmpty = false → adaptiveShapeLow (pyStrip value) = true →
      determine_adaptive_threshold field value = 1/4) ∧
    (value.isEmpty = false → adaptiveShapeLow (pyStrip value) = false →
      determine_adaptive_threshold field value = 9/20) ∧
    determine_adaptive_threshold field value =
      determine_adaptive_threshold field2 value ∧
    (∀ sentence g a t n, is_problematic_field_name field = true →
      (is_relevant_sentence field sentence value g a t n).1 = true →
      6/10 ≤ (is_relevant_sentence field sentence value g a t n).2) := by
  refine ⟨?_, ?_, rfl, fun s g a t n hp hacc =>
    is_relevant_sentence_problematic field s value g a t n hp hacc⟩
  · intro h1 h2
    unfold determine_adaptive_threshold
    rw [h1, h2]
    simp only [Bool.false_eq_true, if_false, eq_self_iff_true, if_true]
  · intro h1 h2
    unfold determine_adaptive_threshold
    rw [h1, h2]
    simp only [Bool.false_eq_true, if_false]

/-- Witness for claim C7: the code-like value `O+` gets the low 0.25
threshold. -/
theorem claim_C7_witness :
    determine_adaptive_threshold (("X").toList) (("O+").toList) = 1/4 :=
  (claim_C7 (("X").toList) (("Y").toList) (("O+").toList)).1 (by decide) (by decide)

/-- Claim C8: with no reusable cache state (both module-level caches
empty), two invocations on identical inputs return identical results, and
the caches are left untouched. -/
theorem claim_C8 (ec1 sc1 ec2 sc2 : List (Str × Str))
    (field value full_text : Str) (st sem : ℚ) (er : Bool)
    (h1 : ec1 = []) (h2 : sc1 = []) (h3 : ec2 = []) (h4 : sc2 = []) :
    generate_with_caches ec1 sc1 field value full_text st sem er =
      generate_with_caches ec2 sc2 field value full_text st sem er ∧
    (generate_with_caches ec1 sc1 field value full_text st sem er).2 =
      (ec1, sc1) := by
  subst h1
  subst h2
  subst h3
  subst h4
  exact ⟨rfl, rfl⟩

/-- Witness for claim C8 on concrete inputs. -/
theorem claim_C8_witness :
    generate_with_caches [] [] (("f").toList) (("v").toList) (("t").toList)
        75 (55/100) true =
      generate_with_caches [] [] (("f").toList) (("v").toList) (("t").toList)
        75 (55/100) true :=
  (claim_C8 [] [] [] [] (("f").toList) (("v").toList) (("t").toList)
    75 (55/100) true rfl rfl rfl rfl).1

/-- Claim C9 (amended): for a context longer than the 2000-character
budget, the result truncates at the last clause-ending punctuation mark
when its position exceeds 70 percent of the budget (the result then ends
with that punctuation mark); otherwise, when the last space sits beyond 80
percent of the budget, it truncates at that space — a whole-word boundary
— and appends an ellipsis; otherwise it cuts at exactly the budget and
appends an ellipsis, possibly mid-word.  (The original claim — the second
branch always applies and the result is never cut mid-word — fails; see
the counterexample.) -/
theorem claim_C9 (context : Str) (h2 : 2000 < context.length) :
    ((1400 : ℚ) < (lastClauseEnd (context.take 2000) : ℚ) →
      ∃ ch ∈ clauseEndings,
        (handle_truncation_and_chopping context 2000).getLast? = some ch) ∧
    ((lastClauseEnd (context.take 2000) : ℚ) ≤ 1400 →
      (1600 : ℚ) < (pyRfindChar ' ' (context.take 2000) : ℚ) →
      handle_truncation_and_chopping context 2000 =
        pyStrip ((context.take 2000).take (pyRfindChar ' ' (context.take 2000)).toNat)
          ++ ("...").toList ∧
      (context.take 2000)[(pyRfindChar ' ' (context.take 2000)).toNat]? = some ' ') ∧
    ((lastClauseEnd (context.take 2000) : ℚ) ≤ 1400 →
      (pyRfindChar ' ' (context.take 2000) : ℚ) ≤ 1600 →
      handle_truncation_and_chopping context 2000 =
        pyStrip (context.take 2000) ++ ("...").toList) :=
  handle_truncation_branches context h2

/-- Witness for claim C9 on a 2100-character run of `a`: both boundary
positions are `-1`, so the raw-cut branch applies. -/
theorem claim_C9_witness :
    handle_truncation_and_chopping (List.replicate 2100 'a') 2000 =
      pyStrip ((List.replicate 2100 'a').take 2000) ++ ("...").toList := by
  have hmain := (claim_C9 (List.replicate 2100 'a')
    (by rw [List.length_replicate]; norm_num)).2.2
  have htake : (List.replicate 2100 'a').take 2000 = List.replicate 2000 'a' := by
    rw [List.take_replicate]
    norm_num
  rw [htake] at hmain ⊢
  rw [lastClauseEnd_replicate_a] at hmain
  rw [show pyRfindChar (' ') (List.replicate 2000 'a') = -1 from
    pyRfindChar_replicate _ _ (by decide) _] at hmain
  exact hmain (by norm_num) (by norm_num)

/-- Counterexample to the original claim C9: a 2100-character run of `a`
is cut at exactly 2000 characters although the word continues — the
characters on both sides of the cut are non-whitespace — so the result is
cut mid-word, not at a whole-word boundary. -/
theorem claim_C9_counterexample :
    handle_truncation_and_chopping (List.replicate 2100 'a') 2000 =
      List.replicate 2000 'a' ++ ("...").toList ∧
    (List.replicate 2100 'a')[1999]? = some 'a' ∧
    (List.replicate 2100 'a')[2000]? = some 'a' ∧
    isWsChar 'a' = false :=
  ⟨trunc_replicate_raw,
   by rw [List.getElem?_replicate, if_pos (by norm_num)],
   by rw [List.getElem?_replicate, if_pos (by norm_num)],
   by decide⟩

/-- Claim C10: every call of `integrate_context_tracking` on a non-empty
document runs the loops from a fresh empty deduplication cache (so cached
results never leak between documents); a cache hit returns exactly the
stored pair and leaves the cache unchanged; and every stored pair is the
pair computed by the table-loop or key-value-loop computation for some
field and value with the matching lower-cased key. -/
theorem claim_C10 :
    (∀ d tables kv chunks, d.isEmpty = false →
      integrate_context_tracking d tables kv chunks =
        integrate_core [] d tables kv chunks) ∧
    (∀ compute cache f v p,
      cache.find? (fun e => e.1 = cacheKey f v) = some p →
      preGatePair compute cache f v = (p.2, cache)) ∧
    (∀ d tables kv chunks,
      ∀ e ∈ (integrate_context_tracking d tables kv chunks).cache,
        ¬e.2.1.isEmpty ∧ e.2.2 > 1/2 ∧ ∃ f v, e.1 = cacheKey f v ∧
          (e.2 = computeTablePair (joinSpace d) f v ∨
           e.2 = computeKVPair (joinSpace d) f v)) := by
  refine ⟨?_, fun compute cache f v p h => preGatePair_hit compute cache f v p h, ?_⟩
  · intro d t k c h
    unfold integrate_context_tracking
    rw [h]
    simp only [Bool.false_eq_true, if_false]
  · intro d t k c e he
    unfold integrate_context_tracking at he
    split at he
    · exact absurd he (List.not_mem_nil e)
    · exact integrate_core_cache_sound [] d t k c
        (fun e2 he2 => absurd he2 (List.not_mem_nil e2)) e he

/-- Witness for claim C10 on a one-line document. -/
theorem claim_C10_witness :
    integrate_context_tracking [("x").toList] [] ⟨[], false⟩ [] =
      integrate_core [] [("x").toList] [] ⟨[], false⟩ [] :=
  (claim_C10).1 [("x").toList] [] ⟨[], false⟩ [] (by decide)

end

end CT
